import Mathlib

/-!
Verification of the Gravity repository (an Antigravity quota-guard VS Code
extension) against its natural-language specification.

The development shallowly embeds the TypeScript sources:
  - the Quota Guard state machine (src/guard/quota_guard.ts),
  - the process/endpoint discovery engine (src/core/process_finder.ts) and the
    per-platform command-line parsing strategies (src/core/platform_strategies.ts),
  - the quota source normalization (src/core/quota_manager.ts).

Numbers that are JS floats carrying percentages/fractions are modelled as Rat;
timestamps (ms since epoch) as Int; JS Map as an association list. Asynchronous
effects (shell commands, HTTPS probes) are modelled by explicit outcome oracles
passed as arguments, and the sequence of externally visible operations is
returned as an event trace.
-/

set_option linter.unusedVariables false

namespace Gravity

/-! ## Association-list model of a string-keyed JS Map -/

def mapGet {α : Type} : List (String × α) → String → Option α
  | [], _ => none
  | (k2, v) :: rest, k => if k2 = k then some v else mapGet rest k

def mapSet {α : Type} : List (String × α) → String → α → List (String × α)
  | [], k, v => [(k, v)]
  | (k2, v2) :: rest, k, v =>
      if k2 = k then (k, v) :: rest else (k2, v2) :: mapSet rest k v

def mapDelete {α : Type} : List (String × α) → String → List (String × α)
  | [], _ => []
  | (k2, v2) :: rest, k =>
      if k2 = k then mapDelete rest k else (k2, v2) :: mapDelete rest k

/-! ## Data model (src/utils/types.ts) -/

inductive GuardLevel where
  | normal
  | warning
  | critical
  | blocked
  deriving DecidableEq, Repr

/-- The severity order used by shouldShowAlert:
normal 0, warning 1, critical 2, blocked 3. -/
def levelOrder : GuardLevel → Nat
  | .normal => 0
  | .warning => 1
  | .critical => 2
  | .blocked => 3

structure ModelQuotaInfo where
  label : String
  modelId : String
  remainingFraction : Option Rat := none
  remainingPercentage : Option Rat
  isExhausted : Bool
  resetTime : Int
  timeUntilReset : Int
  timeUntilResetFormatted : String
  deriving DecidableEq, Repr

structure PromptCreditsInfo where
  available : Rat
  monthly : Rat
  usedPercentage : Rat
  remainingPercentage : Rat
  deriving DecidableEq, Repr

structure QuotaSnapshot where
  timestamp : Int
  promptCredits : Option PromptCreditsInfo
  models : List ModelQuotaInfo
  deriving DecidableEq, Repr

structure GravityConfig where
  enabled : Bool
  warningThreshold : Rat
  blockThreshold : Rat
  pollingInterval : Int
  guardEnabled : Bool
  soundEnabled : Bool
  pinnedModels : List String
  deriving DecidableEq, Repr

structure GuardState where
  level : GuardLevel
  modelsAtRisk : List ModelQuotaInfo
  lowestQuota : Rat
  lowestQuotaModel : Option ModelQuotaInfo := none
  guardActive : Bool
  deriving DecidableEq, Repr

structure GuardCheckResult where
  shouldWarn : Bool
  shouldBlock : Bool
  level : GuardLevel
  model : ModelQuotaInfo
  message : String
  deriving DecidableEq, Repr

/-- An acknowledgment entry stored in QuotaGuard.acknowledgments. -/
structure Acknowledgment where
  level : GuardLevel
  timestamp : Int
  percentage : Rat
  deriving DecidableEq, Repr

/-- Mutable state of the QuotaGuard class instance. -/
structure QuotaGuard where
  lastSnapshot : Option QuotaSnapshot := none
  config : GravityConfig
  guardState : GuardState
  acknowledgments : List (String × Acknowledgment) := []
  lastSeenPercentages : List (String × Rat) := []
  lastBlockShown : Int := 0
  deriving DecidableEq, Repr

/-! ## Quota Guard (src/guard/quota_guard.ts) -/

/-- The effective percentage the guard uses everywhere in its state
analysis: model.remainingPercentage with the JS default of 100
(the source writes model.remainingPercentage with a default of 100). -/
def effectivePct (m : ModelQuotaInfo) : Rat :=
  m.remainingPercentage.getD 100

/-- The virtual model that analyzeQuotaState and
getModelsRequiringAttention build for prompt credits. -/
def pcVirtualModel (pc : PromptCreditsInfo) (now : Int) : ModelQuotaInfo :=
  { label := "Global Prompt Credits"
  , modelId := "prompt_credits"
  , remainingPercentage := some pc.remainingPercentage
  , isExhausted := decide (pc.remainingPercentage ≤ 0)
  , resetTime := now + 3600000
  , timeUntilReset := 3600000
  , timeUntilResetFormatted := "this billing cycle" }

/-- The classification chain at the end of analyzeQuotaState. -/
def classifyChain (cfg : GravityConfig) (q : Rat) : GuardLevel :=
  if q ≤ 0 then .blocked
  else if q ≤ cfg.blockThreshold then .critical
  else if q ≤ cfg.warningThreshold then .warning
  else .normal

/-- The loop over snapshot.models inside analyzeQuotaState, carrying the
modelsAtRisk accumulator, the running lowest quota and the lowest-quota
model. -/
def analyzeLoop (warn : Rat) :
    List ModelQuotaInfo → List ModelQuotaInfo → Rat → Option ModelQuotaInfo →
      List ModelQuotaInfo × Rat × Option ModelQuotaInfo
  | [], atRisk, lowest, lowestM => (atRisk, lowest, lowestM)
  | m :: rest, atRisk, lowest, lowestM =>
      let pct := effectivePct m
      let lowest2 := if pct < lowest then pct else lowest
      let lowestM2 := if pct < lowest then some m else lowestM
      let atRisk2 := if pct ≤ warn then atRisk ++ [m] else atRisk
      analyzeLoop warn rest atRisk2 lowest2 lowestM2

/-- QuotaGuard.analyzeQuotaState. -/
def analyzeQuotaState (cfg : GravityConfig) (snapshot : QuotaSnapshot) (now : Int) :
    GuardState :=
  let acc := analyzeLoop cfg.warningThreshold snapshot.models [] 100 none
  let acc2 :=
    match snapshot.promptCredits with
    | none => acc
    | some pc =>
        let pcPct := pc.remainingPercentage
        let vm := pcVirtualModel pc now
        let lowest2 := if pcPct < acc.2.1 then pcPct else acc.2.1
        let lowestM2 := if pcPct < acc.2.1 then some vm else acc.2.2
        let atRisk2 := if pcPct ≤ cfg.warningThreshold then acc.1 ++ [vm] else acc.1
        (atRisk2, lowest2, lowestM2)
  { level := classifyChain cfg acc2.2.1
  , modelsAtRisk := acc2.1
  , lowestQuota := acc2.2.1
  , lowestQuotaModel := acc2.2.2
  , guardActive := cfg.guardEnabled }

/-- QuotaGuard.checkModel. -/
def checkModel (cfg : GravityConfig) (model : ModelQuotaInfo) : GuardCheckResult :=
  let pct := effectivePct model
  if pct ≤ 0 then
    { shouldWarn := false, shouldBlock := true, level := .blocked, model := model
    , message := model.label ++ " quota is EXHAUSTED! Reset in: " ++
        model.timeUntilResetFormatted }
  else if pct ≤ cfg.blockThreshold then
    { shouldWarn := false, shouldBlock := true, level := .critical, model := model
    , message := "CRITICAL: " ++ model.label ++ " is at " ++ toString pct ++
        "%! Continuing may trigger a cooldown penalty. Reset in: " ++
        model.timeUntilResetFormatted }
  else if pct ≤ cfg.warningThreshold then
    { shouldWarn := true, shouldBlock := false, level := .warning, model := model
    , message := "Warning: " ++ model.label ++ " is at " ++ toString pct ++
        "% Reset in: " ++ model.timeUntilResetFormatted }
  else
    { shouldWarn := false, shouldBlock := false, level := .normal, model := model
    , message := "" }

/-- QuotaGuard.shouldShowAlert. -/
def shouldShowAlert (g : QuotaGuard) (check : GuardCheckResult) (now : Int) : Bool :=
  match mapGet g.acknowledgments check.model.modelId with
  | none => true
  | some ack =>
      if levelOrder ack.level < levelOrder check.level then true
      else if check.level = .critical ∨ check.level = .blocked then false
      else
        decide (600000 < now - ack.timestamp) ||
          decide (5 < ack.percentage - check.model.remainingPercentage.getD 0)

/-- One iteration of the reset-detection loop in updateSnapshot for a
given id and current percentage: clear acknowledgments on a jump of at
least 2 percentage points over the last-observed value, then record the
new value as last observed. -/
def resetStep (acks : List (String × Acknowledgment)) (seen : List (String × Rat))
    (id : String) (currentPct : Rat) :
    List (String × Acknowledgment) × List (String × Rat) :=
  let acks2 :=
    match mapGet seen id with
    | some lastPct =>
        if lastPct + 2 ≤ currentPct then
          mapDelete (mapDelete acks id) "prompt_credits"
        else acks
    | none => acks
  (acks2, mapSet seen id currentPct)

/-- The loop over snapshot.models in updateSnapshot. -/
def processModels (acks : List (String × Acknowledgment)) (seen : List (String × Rat)) :
    List ModelQuotaInfo → List (String × Acknowledgment) × List (String × Rat)
  | [] => (acks, seen)
  | m :: rest =>
      let acc := resetStep acks seen m.modelId (effectivePct m)
      processModels acc.1 acc.2 rest

/-- The prompt-credits reset check in updateSnapshot (only the
prompt_credits acknowledgment is cleared there). -/
def processCredits (acks : List (String × Acknowledgment)) (seen : List (String × Rat)) :
    Option PromptCreditsInfo → List (String × Acknowledgment) × List (String × Rat)
  | none => (acks, seen)
  | some pc =>
      let currentPct := pc.remainingPercentage
      let acks2 :=
        match mapGet seen "prompt_credits" with
        | some lastPct =>
            if lastPct + 2 ≤ currentPct then mapDelete acks "prompt_credits" else acks
        | none => acks
      (acks2, mapSet seen "prompt_credits" currentPct)

/-- QuotaGuard.updateSnapshot: reset detection, then recompute the guard
state from the snapshot; returns the new guard object and the state. -/
def updateSnapshot (g : QuotaGuard) (snapshot : QuotaSnapshot) (now : Int) :
    QuotaGuard × GuardState :=
  let acc := processModels g.acknowledgments g.lastSeenPercentages snapshot.models
  let acc2 := processCredits acc.1 acc.2 snapshot.promptCredits
  let st := analyzeQuotaState g.config snapshot now
  ({ g with lastSnapshot := some snapshot
          , acknowledgments := acc2.1
          , lastSeenPercentages := acc2.2
          , guardState := st }, st)

/-- QuotaGuard.toggleGuard: flips guardState.guardActive in place. -/
def toggleGuard (g : QuotaGuard) : QuotaGuard × Bool :=
  let b := !g.guardState.guardActive
  ({ g with guardState := { g.guardState with guardActive := b } }, b)

/-- QuotaGuard.updateConfig. -/
def guardUpdateConfig (g : QuotaGuard) (cfg : GravityConfig) : QuotaGuard :=
  { g with config := cfg
         , guardState := { g.guardState with guardActive := cfg.guardEnabled } }

/-- QuotaGuard.getModelsRequiringAttention: the at-risk filter used by the
decision gate checkAndWarn. -/
def getModelsRequiringAttention (g : QuotaGuard) (now : Int) : List ModelQuotaInfo :=
  match g.lastSnapshot with
  | none => []
  | some snap =>
      let atRisk := snap.models.filter
        (fun m => decide (effectivePct m ≤ g.config.warningThreshold))
      match snap.promptCredits with
      | some pc =>
          if pc.remainingPercentage ≤ g.config.warningThreshold then
            atRisk ++ [pcVirtualModel pc now]
          else atRisk
      | none => atRisk

/-! ## Process and endpoint discovery (src/core/process_finder.ts)

The shell and HTTPS side effects of detectProcessInfo are modelled by an
oracle: one AttemptEnv per attempt index describing what the external
world answers during that attempt. The engine returns its result
together with the trace of externally visible operations. -/

structure ParsedProcessInfo where
  pid : Nat
  extensionPort : Nat
  csrfToken : String
  deriving DecidableEq, Repr

structure ProcessInfo where
  extensionPort : Nat
  connectPort : Nat
  csrfToken : String
  deriving DecidableEq, Repr

/-- What a candidate port answers to the health probe. -/
inductive PortOutcome where
  | reply (status : Nat) (jsonOk : Bool)
  | netError
  | timeout
  deriving DecidableEq, Repr

/-- ProcessFinder.testPort: resolves true only for an HTTP 200 response
whose body parses as JSON; any other status, a request error or a
timeout resolves false (never throws). -/
def testPort (r : PortOutcome) : Bool :=
  match r with
  | .reply status jsonOk => status == 200 && jsonOk
  | .netError => false
  | .timeout => false

/-- ProcessFinder.findWorkingPort: probes ports in order, stops at the
first working one; also returns the list of ports actually probed. -/
def findWorkingPort (works : Nat → Bool) : List Nat → Option Nat × List Nat
  | [] => (none, [])
  | p :: rest =>
      if works p then (some p, [p])
      else
        let acc := findWorkingPort works rest
        (acc.1, p :: acc.2)

/-- The external world as seen by one attempt of detectProcessInfo. -/
structure AttemptEnv where
  execThrows : Bool
  parseResult : Option ParsedProcessInfo
  portListThrows : Bool
  ports : List Nat
  portResp : Nat → PortOutcome

/-- The port list an attempt works with: getListeningPorts catches its
own errors and returns an empty list when the port-list command throws. -/
def attemptPorts (e : AttemptEnv) : List Nat :=
  if e.portListThrows then [] else e.ports

def attemptWorks (e : AttemptEnv) (p : Nat) : Bool :=
  testPort (e.portResp p)

inductive DiscoveryEvent where
  | procListCmd
  | portListCmd
  | probe (port : Nat)
  | wait (ms : Nat)
  deriving DecidableEq, Repr

/-- One loop iteration of detectProcessInfo: run the process-list
command (a thrown exec error is caught and counts as a failed attempt),
parse, list ports, then validate ports in order; on full success
produce the ProcessInfo built from the parse and the validated port. -/
def runAttempt (e : AttemptEnv) : Option ProcessInfo × List DiscoveryEvent :=
  if e.execThrows then (none, [.procListCmd])
  else
    match e.parseResult with
    | none => (none, [.procListCmd])
    | some info =>
        let ports := attemptPorts e
        if ports.isEmpty then (none, [.procListCmd, .portListCmd])
        else
          let fw := findWorkingPort (attemptWorks e) ports
          match fw.1 with
          | some p =>
              (some { extensionPort := info.extensionPort, connectPort := p
                    , csrfToken := info.csrfToken },
               [.procListCmd, .portListCmd] ++ fw.2.map DiscoveryEvent.probe)
          | none =>
              (none, [.procListCmd, .portListCmd] ++ fw.2.map DiscoveryEvent.probe)

/-- The retry loop of detectProcessInfo from a given attempt index with
a given number of remaining attempts: return on the first success,
otherwise wait 500 ms when another attempt remains. -/
def detectFrom (env : Nat → AttemptEnv) : Nat → Nat → Option ProcessInfo × List DiscoveryEvent
  | _, 0 => (none, [])
  | attempt, r + 1 =>
      let res := runAttempt (env attempt)
      match res.1 with
      | some info => (some info, res.2)
      | none =>
          let waitEvs : List DiscoveryEvent := if r = 0 then [] else [.wait 500]
          let next := detectFrom env (attempt + 1) r
          (next.1, res.2 ++ waitEvs ++ next.2)

/-- ProcessFinder.detectProcessInfo. -/
def detectProcessInfo (env : Nat → AttemptEnv) (maxRetries : Nat) :
    Option ProcessInfo × List DiscoveryEvent :=
  detectFrom env 0 maxRetries

def evIsProc : DiscoveryEvent → Bool
  | .procListCmd => true
  | _ => false

def evIsWait : DiscoveryEvent → Bool
  | .wait _ => true
  | _ => false

/-- Number of process-list invocations in a trace. -/
def countProc (evs : List DiscoveryEvent) : Nat := evs.countP evIsProc

/-- Number of inter-attempt waits in a trace. -/
def countWait (evs : List DiscoveryEvent) : Nat := evs.countP evIsWait

/-! ## Platform strategies (src/core/platform_strategies.ts)

The JS regexes used for parsing process command lines are modelled as
explicit scanners over the character list: the scanner tries the
pattern at every position from the left and the first full match wins,
which coincides with JS String.match semantics for these patterns (all
their character classes are pairwise disjoint, so greedy matching never
backtracks). -/

/-- The separator class between a flag and its value in the regexes. -/
def isSepChar (c : Char) : Bool := c == '=' || c.isWhitespace

/-- The class of a hexadecimal digit under the i flag. -/
def isHexDigitCI (c : Char) : Bool :=
  (decide ('a' ≤ c.toLower) && decide (c.toLower ≤ 'f')) || c.isDigit

/-- The token character class of the csrf regexes under the i flag. -/
def isHexDashCI (c : Char) : Bool := isHexDigitCI c || c == '-'

def digitsToNat (ds : List Char) : Nat :=
  ds.foldl (fun acc c => acc * 10 + (c.toNat - 48)) 0

/-- Case-sensitive literal at the current position; returns the rest. -/
def lit : List Char → List Char → Option (List Char)
  | [], cs => some cs
  | _ :: _, [] => none
  | p :: ps, c :: cs => if p = c then lit ps cs else none

/-- Case-insensitive literal at the current position; returns the rest. -/
def litCI : List Char → List Char → Option (List Char)
  | [], cs => some cs
  | _ :: _, [] => none
  | p :: ps, c :: cs => if p.toLower = c.toLower then litCI ps cs else none

/-- The maximal run of characters in a class, with the rest. -/
def takeRun (p : Char → Bool) : List Char → List Char × List Char
  | [] => ([], [])
  | c :: cs =>
      if p c then
        let acc := takeRun p cs
        (c :: acc.1, acc.2)
      else ([], c :: cs)

/-- Exactly n characters of a class; returns the rest on success. -/
def takeExact (p : Char → Bool) : Nat → List Char → Option (List Char)
  | 0, cs => some cs
  | _ + 1, [] => none
  | n + 1, c :: cs => if p c then takeExact p n cs else none

/-- A flag followed by one or more separators and a captured digit run,
at the current position (the port regexes, case-sensitive). -/
def matchFlagNum (flag : List Char) (cs : List Char) : Option Nat :=
  match lit flag cs with
  | none => none
  | some rest =>
      let seps := takeRun isSepChar rest
      if seps.1.isEmpty then none
      else
        let digits := takeRun Char.isDigit seps.2
        if digits.1.isEmpty then none else some (digitsToNat digits.1)

/-- The explicit csrf_token flag regex at the current position. -/
def matchCsrfFlag (cs : List Char) : Option String :=
  match litCI ("--csrf_token".toList) cs with
  | none => none
  | some rest =>
      let seps := takeRun isSepChar rest
      if seps.1.isEmpty then none
      else
        let tok := takeRun isHexDashCI seps.2
        if tok.1.isEmpty then none else some (String.mk tok.1)

/-- The api_server_url regex at the current position (Windows only):
the flag, an http or https scheme, a nonempty host of non-slash
characters, a slash, then the captured token run. -/
def matchApiUrlTok (cs : List Char) : Option String :=
  match litCI ("--api_server_url=http".toList) cs with
  | none => none
  | some rest =>
      let rest2 :=
        match rest with
        | c :: cs2 => if c.toLower = 's' then cs2 else rest
        | [] => rest
      match litCI ("://".toList) rest2 with
      | none => none
      | some rest3 =>
          let host := takeRun (fun c => c != '/') rest3
          if host.1.isEmpty then none
          else
            match host.2 with
            | '/' :: rest4 =>
                let tok := takeRun isHexDashCI rest4
                if tok.1.isEmpty then none else some (String.mk tok.1)
            | _ => none

/-- A hyphen followed by exactly n hex digits. -/
def uuidTail (n : Nat) (cs : List Char) : Option (List Char) :=
  match cs with
  | '-' :: rest => takeExact isHexDigitCI n rest
  | _ => none

/-- The 8-4-4-4-12 UUID shape at the current position. -/
def uuidCheck (cs : List Char) : Bool :=
  (do
    let r1 ← takeExact isHexDigitCI 8 cs
    let r2 ← uuidTail 4 r1
    let r3 ← uuidTail 4 r2
    let r4 ← uuidTail 4 r3
    let _ ← uuidTail 12 r4
    some ()).isSome

/-- The bare UUID regex at the current position; the capture is the 36
matched characters. -/
def matchUuid (cs : List Char) : Option String :=
  if uuidCheck cs then some (String.mk (cs.take 36)) else none

/-- Leftmost match of a position matcher, as JS String.match. -/
def scanFirst {α : Type} (m : List Char → Option α) : List Char → Option α
  | [] => m []
  | c :: cs =>
      match m (c :: cs) with
      | some r => some r
      | none => scanFirst m cs

/-- Port extraction common to both strategies: the
extension_server_port flag first, the grpc_server_port flag as
fallback. -/
def extractPort (cs : List Char) : Option Nat :=
  match scanFirst (matchFlagNum ("--extension_server_port".toList)) cs with
  | some p => some p
  | none => scanFirst (matchFlagNum ("--grpc_server_port".toList)) cs

/-- WindowsStrategy token extraction: csrf_token flag, then a segment
after api_server_url, then the first bare UUID. -/
def windowsToken (cs : List Char) : Option String :=
  match scanFirst matchCsrfFlag cs with
  | some t => some t
  | none =>
      match scanFirst matchApiUrlTok cs with
      | some t => some t
      | none => scanFirst matchUuid cs

/-- UnixStrategy token extraction: csrf_token flag, then the first bare
UUID; there is no api_server_url step in the Unix variant. -/
def unixToken (cs : List Char) : Option String :=
  match scanFirst matchCsrfFlag cs with
  | some t => some t
  | none => scanFirst matchUuid cs

/-- WindowsStrategy.extractFromCommandLine. -/
def windowsExtractFromCommandLine (cmd : String) (pid : Nat) :
    Option ParsedProcessInfo :=
  match extractPort cmd.toList with
  | none => none
  | some extensionPort =>
      match windowsToken cmd.toList with
      | none => none
      | some csrfToken =>
          some { pid := pid, extensionPort := extensionPort, csrfToken := csrfToken }

/-- JS parseInt on a field without sign or leading whitespace; a NaN
outcome (no leading digits) is modelled as none and defaulted to 0 by
callers, where no claim depends on the pid value. -/
def jsParseIntNat (s : String) : Option Nat :=
  let ds := takeRun Char.isDigit s.toList
  if ds.1.isEmpty then none else some (digitsToNat ds.1)

/-- String.split as character-list recursion (String.split itself is
position-based and does not reduce in the kernel). -/
def splitCharsAux (p : Char → Bool) : List Char → List Char → List (List Char)
  | [], acc => [acc.reverse]
  | c :: cs, acc =>
      if p c then acc.reverse :: splitCharsAux p cs []
      else splitCharsAux p cs (c :: acc)

def splitChars (p : Char → Bool) (cs : List Char) : List (List Char) :=
  splitCharsAux p cs []

/-- String.trim over the character list. -/
def trimChars (cs : List Char) : List Char :=
  ((cs.dropWhile Char.isWhitespace).reverse.dropWhile Char.isWhitespace).reverse

/-- line.trim().split on whitespace runs. -/
def splitWs (s : String) : List String :=
  ((splitChars Char.isWhitespace s.toList).map String.mk).filter
    (fun t => !t.isEmpty)

/-- The command-line columns of a ps aux line rejoined with spaces. -/
def unixCommandLine (line : String) : String :=
  String.intercalate " " ((splitWs line).drop 10)

/-- The pid column of a ps aux line. -/
def unixPid (line : String) : Nat :=
  (jsParseIntNat ((splitWs line).getD 1 "")).getD 0

/-- UnixStrategy.parseProcessLine. -/
def unixParseProcessLine (line : String) : Option ParsedProcessInfo :=
  if (splitWs line).length < 11 then none
  else
    match extractPort (unixCommandLine line).toList with
    | none => none
    | some extensionPort =>
        match unixToken (unixCommandLine line).toList with
        | none => none
        | some csrfToken =>
            some { pid := unixPid line, extensionPort := extensionPort
                 , csrfToken := csrfToken }

/-- UnixStrategy.parseProcessInfo: the first line that parses. -/
def unixFirstLine : List String → Option ParsedProcessInfo
  | [] => none
  | l :: ls =>
      match unixParseProcessLine l with
      | some r => some r
      | none => unixFirstLine ls

def splitLines (s : String) : List String :=
  ((splitChars (fun c => c = '\n') s.toList).filter
    (fun l => !(trimChars l).isEmpty)).map String.mk

def unixParseProcessInfo (stdout : String) : Option ParsedProcessInfo :=
  unixFirstLine (splitLines stdout)

/-- WindowsStrategy.parseProcessInfo: collect the CommandLine and
ProcessId fields of the wmic list output, then extract; a missing
command line or pid (0 models both 0 and NaN, which are falsy) yields
none. -/
def windowsParseProcessInfo (stdout : String) : Option ParsedProcessInfo :=
  let acc := (splitLines stdout).foldl
    (fun (acc : String × Nat) line =>
      match lit ("CommandLine=".toList) line.toList with
      | some rest => (String.mk (trimChars rest), acc.2)
      | none =>
          match lit ("ProcessId=".toList) line.toList with
          | some rest => (acc.1, (jsParseIntNat (String.mk (trimChars rest))).getD 0)
          | none => acc)
    ("", 0)
  if acc.1 = "" ∨ acc.2 = 0 then none
  else windowsExtractFromCommandLine acc.1 acc.2

/-- A command line on which the Windows and Unix token contracts
disagree: the token sits in an api_server_url path segment and there is
no csrf_token flag and no UUID-shaped substring. -/
def exCmd7 : String := "srv --extension_server_port=42 --api_server_url=https://h/abc"

/-- The same command line as the command columns of a ps aux line. -/
def exPsLine7 : String :=
  "u 7 0 0 0 0 ? S 0 0:00 srv --extension_server_port=42 --api_server_url=https://h/abc"

/-! ## Quota source normalization (src/core/quota_manager.ts)

The raw GetUserStatus response is modelled structurally; reset
timestamps are epoch milliseconds, and the locale renderings used by
formatTime are passed in as functions. Transport is modelled by a
RequestResult describing how the HTTPS request ended. -/

structure QuotaInfoRaw where
  remainingFraction : Option Rat
  resetTime : Int
  deriving DecidableEq, Repr

structure ModelOrAlias where
  model : String
  deriving DecidableEq, Repr

structure ServerModelConfig where
  label : String
  modelOrAlias : Option ModelOrAlias
  quotaInfo : Option QuotaInfoRaw
  deriving DecidableEq, Repr

structure PlanInfo where
  monthlyPromptCredits : Rat
  deriving DecidableEq, Repr

structure PlanStatus where
  planInfo : PlanInfo
  availablePromptCredits : Option Rat
  deriving DecidableEq, Repr

structure UserStatus where
  planStatus : Option PlanStatus
  cascadeModelConfigData : Option (List ServerModelConfig)
  deriving DecidableEq, Repr

structure ServerUserStatusResponse where
  userStatus : UserStatus
  deriving DecidableEq, Repr

/-- QuotaManager.formatTime; dateStr and timeStr stand for the locale
renderings of the reset time. For positive ms, (ms + 59999) / 60000 in
integer division is Math.ceil(ms / 60000). -/
def formatTime (ms : Int) (dateStr timeStr : String) : String :=
  if ms ≤ 0 then "Ready"
  else
    let mins : Int := (ms + 59999) / 60000
    let duration :=
      if mins < 60 then toString mins ++ "m"
      else
        let hours := mins / 60
        let remainingMins := mins % 60
        if remainingMins > 0 then
          toString hours ++ "h " ++ toString remainingMins ++ "m"
        else toString hours ++ "h"
    duration ++ " (" ++ dateStr ++ " " ++ timeStr ++ ")"

/-- The ModelQuotaInfo built by QuotaManager.parseResponse for one raw
model entry whose quotaInfo is present. -/
def mkModelEntry (now : Int) (renderDate renderTime : Int → String)
    (m : ServerModelConfig) (qi : QuotaInfoRaw) : ModelQuotaInfo :=
  let resetTime := qi.resetTime
  let diff := resetTime - now
  { label := m.label
  , modelId :=
      match m.modelOrAlias with
      | some a => if a.model = "" then "unknown" else a.model
      | none => "unknown"
  , remainingFraction := qi.remainingFraction
  , remainingPercentage := qi.remainingFraction.map (fun f => f * 100)
  , isExhausted := qi.remainingFraction == some 0
  , resetTime := resetTime
  , timeUntilReset := diff
  , timeUntilResetFormatted :=
      formatTime diff (renderDate resetTime) (renderTime resetTime) }

/-- The filter-then-map over raw models in parseResponse. -/
def parseModels (now : Int) (renderDate renderTime : Int → String) :
    List ServerModelConfig → List ModelQuotaInfo
  | [] => []
  | m :: rest =>
      match m.quotaInfo with
      | none => parseModels now renderDate renderTime rest
      | some qi =>
          mkModelEntry now renderDate renderTime m qi ::
            parseModels now renderDate renderTime rest

/-- QuotaManager.parseResponse. -/
def parseResponse (data : ServerUserStatusResponse) (now : Int)
    (renderDate renderTime : Int → String) : QuotaSnapshot :=
  let promptCredits : Option PromptCreditsInfo :=
    match data.userStatus.planStatus with
    | none => none
    | some ps =>
        match ps.availablePromptCredits with
        | none => none
        | some available =>
            let monthly := ps.planInfo.monthlyPromptCredits
            if 0 < monthly then
              some { available := available, monthly := monthly
                   , usedPercentage := (monthly - available) / monthly * 100
                   , remainingPercentage := available / monthly * 100 }
            else none
  let rawModels := data.userStatus.cascadeModelConfigData.getD []
  { timestamp := now
  , promptCredits := promptCredits
  , models := parseModels now renderDate renderTime rawModels }

/-- How the HTTPS status request ended: a parsed JSON body, a request
error, a timeout, or a body that is not parseable JSON. -/
inductive RequestResult where
  | ok (data : ServerUserStatusResponse)
  | netError (msg : String)
  | timeout
  | badJson

structure QuotaManagerState where
  lastSnapshot : Option QuotaSnapshot := none
  deriving DecidableEq, Repr

inductive QuotaManagerEvent where
  | update (snapshot : QuotaSnapshot)
  | error (msg : String)
  deriving DecidableEq, Repr

/-- QuotaManager.fetchQuota: on success parse, store and publish the
snapshot and return it; on any transport failure report through the
error callback, return null, and leave the stored snapshot untouched. -/
def fetchQuota (st : QuotaManagerState) (r : RequestResult) (now : Int)
    (renderDate renderTime : Int → String) :
    QuotaManagerState × Option QuotaSnapshot × List QuotaManagerEvent :=
  match r with
  | .ok data =>
      let snapshot := parseResponse data now renderDate renderTime
      ({ lastSnapshot := some snapshot }, some snapshot, [.update snapshot])
  | .netError msg => (st, none, [.error msg])
  | .timeout => (st, none, [.error "Request timeout"])
  | .badJson => (st, none, [.error "Invalid JSON response"])

/-- Raw-model fixture for the normalization witness. -/
def exRawQi : QuotaInfoRaw := { remainingFraction := some (1 / 2), resetTime := 1000 }

def exRawModel : ServerModelConfig :=
  { label := "M", modelOrAlias := some { model := "m" }, quotaInfo := some exRawQi }

def exResponse : ServerUserStatusResponse :=
  { userStatus :=
      { planStatus := some { planInfo := { monthlyPromptCredits := 200 }
                           , availablePromptCredits := some 50 }
      , cascadeModelConfigData := some
          [ exRawModel
          , { label := "N", modelOrAlias := none, quotaInfo := none } ] } }

def exPc : PromptCreditsInfo :=
  { available := 50, monthly := 200
  , usedPercentage := (200 - 50) / 200 * 100
  , remainingPercentage := 50 / 200 * 100 }

/-! ## Spec-side definitions -/

/-- Modelled from the spec: the classification sentence
(p le 0 gives blocked; 0 lt p le blockThreshold gives critical;
blockThreshold lt p le warningThreshold gives warning; otherwise normal;
thresholds inclusive on their upper bound), written from the words of the
spec to be compared with classifyChain from the source. -/
def specClassify (cfg : GravityConfig) (p : Rat) : GuardLevel :=
  if p ≤ 0 then .blocked
  else if 0 < p ∧ p ≤ cfg.blockThreshold then .critical
  else if cfg.blockThreshold < p ∧ p ≤ cfg.warningThreshold then .warning
  else .normal

/-- All percentages that participate in the lowest-quota computation of
analyzeQuotaState: the effective percentage of every model, then the
prompt-credits percentage when present. -/
def allEffPcts (snap : QuotaSnapshot) : List Rat :=
  snap.models.map effectivePct ++
    (match snap.promptCredits with
     | some pc => [pc.remainingPercentage]
     | none => [])

/-! ## Example fixtures used by witnesses and counterexamples -/

def exCfg : GravityConfig :=
  { enabled := true, warningThreshold := 20, blockThreshold := 2
  , pollingInterval := 120000, guardEnabled := true, soundEnabled := true
  , pinnedModels := [] }

def exModel (id : String) (pct : Option Rat) : ModelQuotaInfo :=
  { label := id, modelId := id, remainingPercentage := pct, isExhausted := false
  , resetTime := 0, timeUntilReset := 0, timeUntilResetFormatted := "1h" }

def exSnap : QuotaSnapshot :=
  { timestamp := 0, promptCredits := none, models := [exModel "a" (some 15)] }

def exState : GuardState :=
  { level := .normal, modelsAtRisk := [], lowestQuota := 100, guardActive := true }

def exGuard3 : QuotaGuard :=
  { lastSnapshot := none, config := exCfg, guardState := exState
  , acknowledgments :=
      [("a", ⟨.critical, 0, 1⟩), ("b", ⟨.warning, 0, 12⟩),
       ("prompt_credits", ⟨.warning, 0, 50⟩)]
  , lastSeenPercentages := [("a", 10), ("b", 10)]
  , lastBlockShown := 0 }

def exSnap3 : QuotaSnapshot :=
  { timestamp := 0, promptCredits := none
  , models := [exModel "a" (some 12), exModel "b" (some (119 / 10))] }

def exModelNone : ModelQuotaInfo := exModel "m" none

def exSnapNone : QuotaSnapshot :=
  { timestamp := 0, promptCredits := none, models := [exModelNone] }

def exGuard0 : QuotaGuard :=
  { lastSnapshot := none, config := exCfg, guardState := exState }

def exCheck (lvl : GuardLevel) (pct : Option Rat) : GuardCheckResult :=
  { shouldWarn := false, shouldBlock := false, level := lvl
  , model := exModel "a" pct, message := "" }

def exGuardAck (lvl : GuardLevel) (ts : Int) (p : Rat) : QuotaGuard :=
  { lastSnapshot := none, config := exCfg, guardState := exState
  , acknowledgments := [("a", ⟨lvl, ts, p⟩)] }

def exResp (p : Nat) : PortOutcome :=
  if p = 2 then .reply 200 true else .netError

def exEnvFail : AttemptEnv :=
  { execThrows := false, parseResult := none, portListThrows := false
  , ports := [], portResp := fun _ => .netError }

def exEnvOk : AttemptEnv :=
  { execThrows := false
  , parseResult := some { pid := 7, extensionPort := 42, csrfToken := "t" }
  , portListThrows := false, ports := [1, 2, 3], portResp := exResp }

def exEnvSeq (i : Nat) : AttemptEnv :=
  if i = 0 then exEnvFail else exEnvOk

/-! ## Classification lemmas (claim C1) -/

theorem ite_lt_eq_min (a b : Rat) : (if b < a then b else a) = min a b := by
  rcases lt_or_le b a with h | h
  · simp [h, min_eq_right h.le]
  · simp [not_lt.mpr h, min_eq_left h]

theorem classifyChain_eq_specClassify (cfg : GravityConfig) (q : Rat) :
    classifyChain cfg q = specClassify cfg q := by
  unfold classifyChain specClassify
  by_cases h0 : q ≤ 0
  · simp [h0]
  · have h0p : 0 < q := not_le.mp h0
    by_cases hb : q ≤ cfg.blockThreshold
    · simp [h0, hb, h0p]
    · have hbp : cfg.blockThreshold < q := not_le.mp hb
      by_cases hw : q ≤ cfg.warningThreshold
      · simp [h0, hb, hw, hbp]
      · simp [h0, hb, hw]

theorem checkModel_level (cfg : GravityConfig) (m : ModelQuotaInfo) :
    (checkModel cfg m).level = classifyChain cfg (effectivePct m) := by
  simp only [checkModel, classifyChain]
  split_ifs <;> rfl

theorem analyzeLoop_lowest (warn : Rat) (ms : List ModelQuotaInfo)
    (atRisk : List ModelQuotaInfo) (lowest : Rat) (lowestM : Option ModelQuotaInfo) :
    (analyzeLoop warn ms atRisk lowest lowestM).2.1
      = (ms.map effectivePct).foldl min lowest := by
  induction ms generalizing atRisk lowest lowestM with
  | nil => rfl
  | cons m rest ih =>
      simp only [analyzeLoop, List.map_cons, List.foldl_cons]
      rw [ih, ite_lt_eq_min]

theorem analyzeLoop_atRisk (warn : Rat) (ms : List ModelQuotaInfo)
    (atRisk : List ModelQuotaInfo) (lowest : Rat) (lowestM : Option ModelQuotaInfo) :
    (analyzeLoop warn ms atRisk lowest lowestM).1
      = atRisk ++ ms.filter (fun m => decide (effectivePct m ≤ warn)) := by
  induction ms generalizing atRisk lowest lowestM with
  | nil => simp [analyzeLoop]
  | cons m rest ih =>
      simp only [analyzeLoop, List.filter_cons]
      rw [ih]
      by_cases h : effectivePct m ≤ warn
      · simp [h]
      · simp [h]

theorem analyzeQuotaState_level (cfg : GravityConfig) (snap : QuotaSnapshot) (now : Int) :
    (analyzeQuotaState cfg snap now).level
      = classifyChain cfg (analyzeQuotaState cfg snap now).lowestQuota := rfl

theorem analyzeQuotaState_lowest (cfg : GravityConfig) (snap : QuotaSnapshot) (now : Int) :
    (analyzeQuotaState cfg snap now).lowestQuota = (allEffPcts snap).foldl min 100 := by
  cases hpc : snap.promptCredits with
  | none =>
      simp [analyzeQuotaState, allEffPcts, hpc, analyzeLoop_lowest]
  | some pc =>
      simp only [analyzeQuotaState, allEffPcts, hpc, List.foldl_append,
        List.foldl_cons, List.foldl_nil, analyzeLoop_lowest]
      rw [ite_lt_eq_min]

theorem analyzeQuotaState_atRisk (cfg : GravityConfig) (snap : QuotaSnapshot) (now : Int) :
    (analyzeQuotaState cfg snap now).modelsAtRisk
      = snap.models.filter (fun m => decide (effectivePct m ≤ cfg.warningThreshold)) ++
        (match snap.promptCredits with
         | some pc =>
             if pc.remainingPercentage ≤ cfg.warningThreshold then
               [pcVirtualModel pc now]
             else []
         | none => []) := by
  cases hpc : snap.promptCredits with
  | none =>
      simp [analyzeQuotaState, hpc, analyzeLoop_atRisk]
  | some pc =>
      simp only [analyzeQuotaState, hpc, analyzeLoop_atRisk]
      by_cases h : pc.remainingPercentage ≤ cfg.warningThreshold
      · simp [h]
      · simp [h]

/-- C1: for thresholds with blockThreshold at most warningThreshold, the
guard classifies the lowest remaining percentage exactly as the spec
states: p le 0 blocked, 0 lt p le blockThreshold critical,
blockThreshold lt p le warningThreshold warning, else normal, upper
bounds inclusive; GuardState.level is this classification of the lowest
effective percentage, and checkModel assigns each model the same
classification of its own percentage. -/
theorem claim1_classification (cfg : GravityConfig)
    (hbw : cfg.blockThreshold ≤ cfg.warningThreshold)
    (snap : QuotaSnapshot) (now : Int) :
    (analyzeQuotaState cfg snap now).level
        = specClassify cfg (analyzeQuotaState cfg snap now).lowestQuota
      ∧ (analyzeQuotaState cfg snap now).lowestQuota
        = (allEffPcts snap).foldl min 100
      ∧ ∀ m : ModelQuotaInfo,
          (checkModel cfg m).level = specClassify cfg (effectivePct m) :=
  ⟨by rw [analyzeQuotaState_level, classifyChain_eq_specClassify],
   analyzeQuotaState_lowest cfg snap now,
   fun m => by rw [checkModel_level, classifyChain_eq_specClassify]⟩

/-- Witness for C1 at a concrete config and snapshot. -/
theorem claim1_classification_witness :
    exCfg.blockThreshold ≤ exCfg.warningThreshold ∧
      (analyzeQuotaState exCfg exSnap 0).level
        = specClassify exCfg (analyzeQuotaState exCfg exSnap 0).lowestQuota ∧
      (checkModel exCfg (exModel "a" (some 15))).level
        = specClassify exCfg (effectivePct (exModel "a" (some 15))) :=
  ⟨by decide, (claim1_classification exCfg (by decide) exSnap 0).1,
   (claim1_classification exCfg (by decide) exSnap 0).2.2 _⟩

/-! ## Map lemmas -/

theorem mapGet_set_same {α : Type} (m : List (String × α)) (k : String) (v : α) :
    mapGet (mapSet m k v) k = some v := by
  induction m with
  | nil => simp [mapSet, mapGet]
  | cons p rest ih =>
      obtain ⟨k2, v2⟩ := p
      by_cases h : k2 = k
      · simp [mapSet, mapGet, h]
      · simp [mapSet, mapGet, h, ih]

theorem mapGet_set_ne {α : Type} (m : List (String × α)) (k k2 : String) (v : α)
    (h : k ≠ k2) : mapGet (mapSet m k v) k2 = mapGet m k2 := by
  induction m with
  | nil => simp [mapSet, mapGet, h]
  | cons p rest ih =>
      obtain ⟨ka, va⟩ := p
      by_cases hk : ka = k
      · subst hk
        simp [mapSet, mapGet, h]
      · simp only [mapSet, if_neg hk, mapGet]
        by_cases hk2 : ka = k2
        · simp [hk2]
        · simp [hk2, ih]

theorem mapGet_delete_same {α : Type} (m : List (String × α)) (k : String) :
    mapGet (mapDelete m k) k = none := by
  induction m with
  | nil => simp [mapDelete, mapGet]
  | cons p rest ih =>
      obtain ⟨ka, va⟩ := p
      by_cases hk : ka = k
      · simp [mapDelete, hk, ih]
      · simp [mapDelete, mapGet, hk, ih]

theorem mapGet_delete_ne {α : Type} (m : List (String × α)) (k k2 : String)
    (h : k ≠ k2) : mapGet (mapDelete m k) k2 = mapGet m k2 := by
  induction m with
  | nil => simp [mapDelete]
  | cons p rest ih =>
      obtain ⟨ka, va⟩ := p
      by_cases hk : ka = k
      · subst hk
        simp [mapDelete, mapGet, h, ih]
      · simp [mapDelete, mapGet, hk, ih]

theorem mapGet_delete_none {α : Type} (m : List (String × α)) (k k2 : String)
    (h : mapGet m k2 = none) : mapGet (mapDelete m k) k2 = none := by
  by_cases hk : k = k2
  · subst hk; exact mapGet_delete_same m k
  · rw [mapGet_delete_ne m k k2 hk]; exact h

/-! ## Reset-detection lemmas (claims C2, C3) -/

theorem resetStep_seen (a : List (String × Acknowledgment)) (s : List (String × Rat))
    (id : String) (p : Rat) : (resetStep a s id p).2 = mapSet s id p := rfl

theorem resetStep_acks_other (a : List (String × Acknowledgment))
    (s : List (String × Rat)) (id : String) (p : Rat) (id2 : String)
    (h1 : id2 ≠ id) (h2 : id2 ≠ "prompt_credits") :
    mapGet (resetStep a s id p).1 id2 = mapGet a id2 := by
  simp only [resetStep]
  cases hs : mapGet s id with
  | none => rfl
  | some lastPct =>
      by_cases hc : lastPct + 2 ≤ p
      · simp only [if_pos hc]
        rw [mapGet_delete_ne _ _ _ (fun h => h2 h.symm),
          mapGet_delete_ne _ _ _ (fun h => h1 h.symm)]
      · simp only [if_neg hc]

theorem resetStep_acks_none (a : List (String × Acknowledgment))
    (s : List (String × Rat)) (id : String) (p : Rat) (id2 : String)
    (h : mapGet a id2 = none) : mapGet (resetStep a s id p).1 id2 = none := by
  simp only [resetStep]
  cases hs : mapGet s id with
  | none => exact h
  | some lastPct =>
      by_cases hc : lastPct + 2 ≤ p
      · simp only [if_pos hc]
        exact mapGet_delete_none _ _ _ (mapGet_delete_none _ _ _ h)
      · simp only [if_neg hc]; exact h

theorem resetStep_fires (a : List (String × Acknowledgment))
    (s : List (String × Rat)) (id : String) (p : Rat) (lastPct : Rat)
    (hs : mapGet s id = some lastPct) (hc : lastPct + 2 ≤ p) :
    mapGet (resetStep a s id p).1 id = none ∧
      mapGet (resetStep a s id p).1 "prompt_credits" = none := by
  simp only [resetStep, hs, if_pos hc]
  refine ⟨?_, mapGet_delete_same _ _⟩
  exact mapGet_delete_none _ _ _ (mapGet_delete_same a id)

theorem resetStep_nofire (a : List (String × Acknowledgment))
    (s : List (String × Rat)) (id : String) (p : Rat) (lastPct : Rat)
    (hs : mapGet s id = some lastPct) (hc : ¬ lastPct + 2 ≤ p) :
    (resetStep a s id p).1 = a := by
  simp only [resetStep, hs, if_neg hc]

theorem processModels_seen_other (ms : List ModelQuotaInfo)
    (a : List (String × Acknowledgment)) (s : List (String × Rat)) (id : String)
    (h : id ∉ ms.map (fun m => m.modelId)) :
    mapGet (processModels a s ms).2 id = mapGet s id := by
  induction ms generalizing a s with
  | nil => rfl
  | cons m rest ih =>
      simp only [List.map_cons, List.mem_cons, not_or] at h
      simp only [processModels]
      rw [ih _ _ h.2, resetStep_seen, mapGet_set_ne _ _ _ _ (fun hh => h.1 hh.symm)]

theorem processModels_acks_other (ms : List ModelQuotaInfo)
    (a : List (String × Acknowledgment)) (s : List (String × Rat)) (id : String)
    (h : id ∉ ms.map (fun m => m.modelId)) (hpc : id ≠ "prompt_credits") :
    mapGet (processModels a s ms).1 id = mapGet a id := by
  induction ms generalizing a s with
  | nil => rfl
  | cons m rest ih =>
      simp only [List.map_cons, List.mem_cons, not_or] at h
      simp only [processModels]
      rw [ih _ _ h.2, resetStep_acks_other _ _ _ _ _ h.1 hpc]

theorem processModels_acks_none (ms : List ModelQuotaInfo)
    (a : List (String × Acknowledgment)) (s : List (String × Rat)) (id : String)
    (h : mapGet a id = none) : mapGet (processModels a s ms).1 id = none := by
  induction ms generalizing a s with
  | nil => exact h
  | cons m rest ih =>
      simp only [processModels]
      exact ih _ _ (resetStep_acks_none _ _ _ _ _ h)

theorem processModels_seen_mem (ms : List ModelQuotaInfo)
    (a : List (String × Acknowledgment)) (s : List (String × Rat))
    (m : ModelQuotaInfo) (hnd : (ms.map (fun m2 => m2.modelId)).Nodup)
    (hm : m ∈ ms) :
    mapGet (processModels a s ms).2 m.modelId = some (effectivePct m) := by
  induction ms generalizing a s with
  | nil => cases hm
  | cons m0 rest ih =>
      simp only [List.map_cons, List.nodup_cons] at hnd
      rcases List.mem_cons.mp hm with hm0 | hmr
      · subst hm0
        simp only [processModels]
        rw [processModels_seen_other _ _ _ _ hnd.1, resetStep_seen, mapGet_set_same]
      · simp only [processModels]
        exact ih _ _ hnd.2 hmr

theorem processModels_fire (ms : List ModelQuotaInfo)
    (a : List (String × Acknowledgment)) (s : List (String × Rat))
    (m : ModelQuotaInfo) (lastPct : Rat)
    (hnd : (ms.map (fun m2 => m2.modelId)).Nodup) (hm : m ∈ ms)
    (hs : mapGet s m.modelId = some lastPct) (hc : lastPct + 2 ≤ effectivePct m) :
    mapGet (processModels a s ms).1 m.modelId = none ∧
      mapGet (processModels a s ms).1 "prompt_credits" = none := by
  induction ms generalizing a s with
  | nil => cases hm
  | cons m0 rest ih =>
      simp only [List.map_cons, List.nodup_cons] at hnd
      rcases List.mem_cons.mp hm with hm0 | hmr
      · subst hm0
        simp only [processModels]
        obtain ⟨h1, h2⟩ := resetStep_fires a s m.modelId (effectivePct m) lastPct hs hc
        exact ⟨processModels_acks_none _ _ _ _ h1, processModels_acks_none _ _ _ _ h2⟩
      · have hne : m.modelId ≠ m0.modelId := by
          intro he
          exact hnd.1 (he ▸ List.mem_map_of_mem (fun m2 => m2.modelId) hmr)
        simp only [processModels]
        refine ih _ _ hnd.2 hmr ?_
        rw [resetStep_seen, mapGet_set_ne _ _ _ _ (fun hh => hne hh.symm)]
        exact hs

theorem processModels_nofire (ms : List ModelQuotaInfo)
    (a : List (String × Acknowledgment)) (s : List (String × Rat))
    (m : ModelQuotaInfo) (lastPct : Rat)
    (hnd : (ms.map (fun m2 => m2.modelId)).Nodup)
    (hnpc : ∀ m2 ∈ ms, m2.modelId ≠ "prompt_credits") (hm : m ∈ ms)
    (hs : mapGet s m.modelId = some lastPct)
    (hc : ¬ lastPct + 2 ≤ effectivePct m) :
    mapGet (processModels a s ms).1 m.modelId = mapGet a m.modelId := by
  induction ms generalizing a s with
  | nil => cases hm
  | cons m0 rest ih =>
      simp only [List.map_cons, List.nodup_cons] at hnd
      rcases List.mem_cons.mp hm with hm0 | hmr
      · subst hm0
        simp only [processModels]
        rw [processModels_acks_other _ _ _ _ hnd.1 (hnpc m (List.mem_cons_self _ _)),
          resetStep_nofire a s m.modelId (effectivePct m) lastPct hs hc]
      · have hne : m.modelId ≠ m0.modelId := by
          intro he
          exact hnd.1 (he ▸ List.mem_map_of_mem (fun m2 => m2.modelId) hmr)
        simp only [processModels]
        have hs2 : mapGet (resetStep a s m0.modelId (effectivePct m0)).2 m.modelId
            = some lastPct := by
          rw [resetStep_seen, mapGet_set_ne _ _ _ _ (fun hh => hne hh.symm)]
          exact hs
        rw [ih _ _ hnd.2 (fun m2 hm2 => hnpc m2 (List.mem_cons_of_mem _ hm2)) hmr hs2]
        exact resetStep_acks_other _ _ _ _ _ hne (hnpc m hm)

theorem processCredits_seen_other (o : Option PromptCreditsInfo)
    (a : List (String × Acknowledgment)) (s : List (String × Rat)) (id : String)
    (h : id ≠ "prompt_credits") :
    mapGet (processCredits a s o).2 id = mapGet s id := by
  cases o with
  | none => rfl
  | some pc =>
      simp only [processCredits]
      exact mapGet_set_ne _ _ _ _ (fun hh => h hh.symm)

theorem processCredits_acks_other (o : Option PromptCreditsInfo)
    (a : List (String × Acknowledgment)) (s : List (String × Rat)) (id : String)
    (h : id ≠ "prompt_credits") :
    mapGet (processCredits a s o).1 id = mapGet a id := by
  cases o with
  | none => rfl
  | some pc =>
      simp only [processCredits]
      cases hs : mapGet s "prompt_credits" with
      | none => rfl
      | some lastPct =>
          by_cases hc : lastPct + 2 ≤ pc.remainingPercentage
          · simp only [if_pos hc]
            exact mapGet_delete_ne _ _ _ (fun hh => h hh.symm)
          · simp only [if_neg hc]

theorem processCredits_acks_none (o : Option PromptCreditsInfo)
    (a : List (String × Acknowledgment)) (s : List (String × Rat)) (id : String)
    (h : mapGet a id = none) : mapGet (processCredits a s o).1 id = none := by
  cases o with
  | none => exact h
  | some pc =>
      simp only [processCredits]
      cases hs : mapGet s "prompt_credits" with
      | none => exact h
      | some lastPct =>
          by_cases hc : lastPct + 2 ≤ pc.remainingPercentage
          · simp only [if_pos hc]
            exact mapGet_delete_none _ _ _ h
          · simp only [if_neg hc]; exact h

theorem processCredits_seen_same (pc : PromptCreditsInfo)
    (a : List (String × Acknowledgment)) (s : List (String × Rat)) :
    mapGet (processCredits a s (some pc)).2 "prompt_credits"
      = some pc.remainingPercentage := by
  simp only [processCredits]
  exact mapGet_set_same _ _ _

theorem processCredits_fire (pc : PromptCreditsInfo)
    (a : List (String × Acknowledgment)) (s : List (String × Rat)) (lastPct : Rat)
    (hs : mapGet s "prompt_credits" = some lastPct)
    (hc : lastPct + 2 ≤ pc.remainingPercentage) :
    mapGet (processCredits a s (some pc)).1 "prompt_credits" = none := by
  simp only [processCredits, hs, if_pos hc]
  exact mapGet_delete_same _ _

/-- C3: on updateSnapshot, for every id (model or prompt credits) with
a previously recorded last-observed percentage, a reset fires iff the
current percentage is at least last plus 2.0; a firing reset clears that
id's acknowledgment together with the prompt-credits acknowledgment, a
non-firing one leaves the id's acknowledgment unchanged, and the current
percentage is always recorded as last observed (model ids assumed
pairwise distinct and distinct from the synthetic prompt_credits id). -/
theorem claim3_reset_detection (g : QuotaGuard) (snap : QuotaSnapshot) (now : Int)
    (hnd : (snap.models.map (fun m => m.modelId)).Nodup)
    (hnpc : ∀ m ∈ snap.models, m.modelId ≠ "prompt_credits") :
    (∀ m ∈ snap.models,
        mapGet (updateSnapshot g snap now).1.lastSeenPercentages m.modelId
          = some (effectivePct m))
    ∧ (∀ m ∈ snap.models, ∀ lastPct,
        mapGet g.lastSeenPercentages m.modelId = some lastPct →
        lastPct + 2 ≤ effectivePct m →
        mapGet (updateSnapshot g snap now).1.acknowledgments m.modelId = none ∧
          mapGet (updateSnapshot g snap now).1.acknowledgments "prompt_credits" = none)
    ∧ (∀ m ∈ snap.models, ∀ lastPct,
        mapGet g.lastSeenPercentages m.modelId = some lastPct →
        ¬ lastPct + 2 ≤ effectivePct m →
        mapGet (updateSnapshot g snap now).1.acknowledgments m.modelId
          = mapGet g.acknowledgments m.modelId)
    ∧ (∀ pc, snap.promptCredits = some pc →
        mapGet (updateSnapshot g snap now).1.lastSeenPercentages "prompt_credits"
          = some pc.remainingPercentage)
    ∧ (∀ pc, snap.promptCredits = some pc → ∀ lastPct,
        mapGet g.lastSeenPercentages "prompt_credits" = some lastPct →
        lastPct + 2 ≤ pc.remainingPercentage →
        mapGet (updateSnapshot g snap now).1.acknowledgments "prompt_credits" = none) := by
  have hpcmem : "prompt_credits" ∉ snap.models.map (fun m => m.modelId) := by
    intro hmem
    obtain ⟨m2, hm2, he⟩ := List.mem_map.mp hmem
    exact hnpc m2 hm2 he
  refine ⟨?_, ?_, ?_, ?_, ?_⟩
  · intro m hm
    show mapGet (processCredits _ _ snap.promptCredits).2 m.modelId = _
    rw [processCredits_seen_other _ _ _ _ (hnpc m hm)]
    exact processModels_seen_mem _ _ _ _ hnd hm
  · intro m hm lastPct hs hc
    obtain ⟨h1, h2⟩ := processModels_fire snap.models g.acknowledgments
      g.lastSeenPercentages m lastPct hnd hm hs hc
    exact ⟨processCredits_acks_none _ _ _ _ h1, processCredits_acks_none _ _ _ _ h2⟩
  · intro m hm lastPct hs hc
    show mapGet (processCredits _ _ snap.promptCredits).1 m.modelId = _
    rw [processCredits_acks_other _ _ _ _ (hnpc m hm)]
    exact processModels_nofire snap.models g.acknowledgments g.lastSeenPercentages
      m lastPct hnd hnpc hm hs hc
  · intro pc hpc
    show mapGet (processCredits _ _ snap.promptCredits).2 "prompt_credits" = _
    rw [hpc]
    exact processCredits_seen_same pc _ _
  · intro pc hpc lastPct hs hc
    show mapGet (processCredits _ _ snap.promptCredits).1 "prompt_credits" = none
    rw [hpc]
    refine processCredits_fire pc _ _ lastPct ?_ hc
    rw [processModels_seen_other _ _ _ _ hpcmem]
    exact hs

/-- Witness for C3: a jump from 10 to exactly 12 fires (clearing the
model's and the prompt-credits acknowledgments), a jump from 10 to 11.9
does not (the acknowledgment survives), and both percentages are
recorded as last observed. -/
theorem claim3_reset_detection_witness :
    mapGet (updateSnapshot exGuard3 exSnap3 0).1.acknowledgments "a" = none ∧
    mapGet (updateSnapshot exGuard3 exSnap3 0).1.acknowledgments "prompt_credits" = none ∧
    mapGet (updateSnapshot exGuard3 exSnap3 0).1.acknowledgments "b"
      = mapGet exGuard3.acknowledgments "b" ∧
    mapGet (updateSnapshot exGuard3 exSnap3 0).1.lastSeenPercentages "a" = some 12 ∧
    mapGet (updateSnapshot exGuard3 exSnap3 0).1.lastSeenPercentages "b"
      = some (119 / 10) := by
  have h := claim3_reset_detection exGuard3 exSnap3 0
    (by simp [exSnap3, exModel]) (by simp [exSnap3, exModel])
  have hma : exModel "a" (some 12) ∈ exSnap3.models := by simp [exSnap3]
  have hmb : exModel "b" (some (119 / 10)) ∈ exSnap3.models := by simp [exSnap3]
  have hsa : mapGet exGuard3.lastSeenPercentages (exModel "a" (some 12)).modelId
      = some 10 := by simp [exGuard3, exModel, mapGet]
  have hsb : mapGet exGuard3.lastSeenPercentages (exModel "b" (some (119 / 10))).modelId
      = some 10 := by simp [exGuard3, exModel, mapGet]
  have hfa : (10 : Rat) + 2 ≤ effectivePct (exModel "a" (some 12)) := by
    norm_num [effectivePct, exModel]
  have hfb : ¬ (10 : Rat) + 2 ≤ effectivePct (exModel "b" (some (119 / 10))) := by
    norm_num [effectivePct, exModel]
  refine ⟨?_, ?_, ?_, ?_, ?_⟩
  · exact (h.2.1 (exModel "a" (some 12)) hma 10 hsa hfa).1
  · exact (h.2.1 (exModel "a" (some 12)) hma 10 hsa hfa).2
  · exact h.2.2.1 (exModel "b" (some (119 / 10))) hmb 10 hsb hfb
  · exact h.1 (exModel "a" (some 12)) hma
  · exact h.1 (exModel "b" (some (119 / 10))) hmb

/-! ## Claim C2: handling of an absent remainingPercentage -/

/-- C2 counterexample: a model whose remainingPercentage is absent is
treated by the guard exactly as a model at 100 percent: with thresholds
20/2 it is excluded from modelsAtRisk and from the decision gate's
at-risk set, the state stays normal with lowestQuota 100, and reset
detection records 100 as the last-observed percentage — so an absent
percentage does make the model count as healthy, contradicting the
claim. -/
theorem claim2_counterexample :
    exModelNone.remainingPercentage = none ∧
    (analyzeQuotaState exCfg exSnapNone 0).modelsAtRisk = [] ∧
    (analyzeQuotaState exCfg exSnapNone 0).lowestQuota = 100 ∧
    (analyzeQuotaState exCfg exSnapNone 0).level = GuardLevel.normal ∧
    mapGet ((updateSnapshot exGuard0 exSnapNone 0).1.lastSeenPercentages) "m"
      = some 100 ∧
    getModelsRequiringAttention ((updateSnapshot exGuard0 exSnapNone 0).1) 0 = [] := by
  decide

/-- C2 (amended): the guard defaults an absent remainingPercentage to
100 rather than treating it as unknown: such a model is excluded from
the at-risk sets of state analysis and of the decision gate whenever the
warning threshold is below 100, and reset detection records exactly 100
as its last-observed percentage. -/
theorem claim2_amended (cfg : GravityConfig) (snap : QuotaSnapshot) (now : Int)
    (m : ModelQuotaInfo) (hm : m ∈ snap.models)
    (hnone : m.remainingPercentage = none) (hid : m.modelId ≠ "prompt_credits") :
    (cfg.warningThreshold < 100 → m ∉ (analyzeQuotaState cfg snap now).modelsAtRisk)
    ∧ (∀ g : QuotaGuard, g.lastSnapshot = some snap →
        g.config.warningThreshold < 100 → m ∉ getModelsRequiringAttention g now)
    ∧ (∀ g : QuotaGuard, (snap.models.map (fun m2 => m2.modelId)).Nodup →
        mapGet (updateSnapshot g snap now).1.lastSeenPercentages m.modelId
          = some 100) := by
  have heff : effectivePct m = 100 := by simp [effectivePct, hnone]
  refine ⟨?_, ?_, ?_⟩
  · intro hw hmem
    rw [analyzeQuotaState_atRisk] at hmem
    rcases List.mem_append.mp hmem with hf | hpcm
    · have := (List.mem_filter.mp hf).2
      rw [decide_eq_true_eq, heff] at this
      exact absurd hw (not_lt.mpr this)
    · cases hpc : snap.promptCredits with
      | none =>
          simp only [hpc] at hpcm
          cases hpcm
      | some pc =>
          simp only [hpc] at hpcm
          by_cases hle : pc.remainingPercentage ≤ cfg.warningThreshold
          · rw [if_pos hle] at hpcm
            have := List.mem_singleton.mp hpcm
            exact hid (by rw [this]; rfl)
          · rw [if_neg hle] at hpcm; cases hpcm
  · intro g hgs hw hmem
    simp only [getModelsRequiringAttention, hgs] at hmem
    cases hpc : snap.promptCredits with
    | none =>
        simp only [hpc] at hmem
        have := (List.mem_filter.mp hmem).2
        rw [decide_eq_true_eq, heff] at this
        exact absurd hw (not_lt.mpr this)
    | some pc =>
        simp only [hpc] at hmem
        by_cases hle : pc.remainingPercentage ≤ g.config.warningThreshold
        · rw [if_pos hle] at hmem
          rcases List.mem_append.mp hmem with hf | hpcm
          · have := (List.mem_filter.mp hf).2
            rw [decide_eq_true_eq, heff] at this
            exact absurd hw (not_lt.mpr this)
          · have := List.mem_singleton.mp hpcm
            exact hid (by rw [this]; rfl)
        · rw [if_neg hle] at hmem
          have := (List.mem_filter.mp hmem).2
          rw [decide_eq_true_eq, heff] at this
          exact absurd hw (not_lt.mpr this)
  · intro g hnd
    show mapGet (processCredits _ _ snap.promptCredits).2 m.modelId = _
    rw [processCredits_seen_other _ _ _ _ hid,
      processModels_seen_mem _ _ _ _ hnd hm, heff]

/-- Witness for C2 (amended) at the concrete absent-percentage model. -/
theorem claim2_amended_witness :
    exModelNone ∉ (analyzeQuotaState exCfg exSnapNone 0).modelsAtRisk ∧
    exModelNone ∉ getModelsRequiringAttention ((updateSnapshot exGuard0 exSnapNone 0).1) 0 ∧
    mapGet (updateSnapshot exGuard0 exSnapNone 0).1.lastSeenPercentages "m"
      = some 100 := by
  have h := claim2_amended exCfg exSnapNone 0 exModelNone
    (by simp [exSnapNone]) (by simp [exModelNone, exModel])
    (by simp [exModelNone, exModel])
  refine ⟨h.1 (by norm_num [exCfg]), ?_, ?_⟩
  · refine h.2.1 ((updateSnapshot exGuard0 exSnapNone 0).1) rfl ?_
    show (20 : Rat) < 100
    norm_num
  · exact h.2.2 exGuard0 (by simp [exSnapNone, exModelNone, exModel])

/-! ## Claim C4: the alert-suppression gate -/

/-- C4: shouldShowAlert shows when no acknowledgment is stored; always
shows on strict escalation of the level past the acknowledged level;
suppresses at critical or blocked whenever there is no escalation,
independent of elapsed time; and at warning level (without escalation)
shows again exactly when more than 600000 ms have passed since the
acknowledgment or the percentage has dropped by more than 5 points below
the acknowledged one. -/
theorem claim4_shouldShowAlert (g : QuotaGuard) (check : GuardCheckResult) (now : Int) :
    (mapGet g.acknowledgments check.model.modelId = none →
        shouldShowAlert g check now = true)
  ∧ (∀ ack, mapGet g.acknowledgments check.model.modelId = some ack →
      (levelOrder ack.level < levelOrder check.level →
          shouldShowAlert g check now = true)
      ∧ (¬ levelOrder ack.level < levelOrder check.level →
          (check.level = GuardLevel.critical ∨ check.level = GuardLevel.blocked) →
          shouldShowAlert g check now = false)
      ∧ (check.level = GuardLevel.warning →
          ¬ levelOrder ack.level < levelOrder GuardLevel.warning →
          ∀ p, check.model.remainingPercentage = some p →
          (shouldShowAlert g check now = true ↔
            (600000 < now - ack.timestamp ∨ 5 < ack.percentage - p)))) := by
  refine ⟨?_, ?_⟩
  · intro h
    simp [shouldShowAlert, h]
  · intro ack hack
    refine ⟨?_, ?_, ?_⟩
    · intro hlt
      simp [shouldShowAlert, hack, hlt]
    · intro hnlt hcb
      simp [shouldShowAlert, hack, hnlt, hcb]
    · intro hw hnlt p hp
      have hncb : ¬ (check.level = GuardLevel.critical ∨ check.level = GuardLevel.blocked) := by
        simp [hw]
      simp [shouldShowAlert, hack, hw, hnlt, hncb, hp]

/-- Witness for C4: no acknowledgment shows; warning-to-critical
escalation shows; critical with a critical acknowledgment is suppressed;
a warning re-shows after 600001 ms; a warning re-shows after a 6-point
drop. -/
theorem claim4_shouldShowAlert_witness :
    shouldShowAlert exGuard0 (exCheck .warning (some 15)) 0 = true ∧
    shouldShowAlert (exGuardAck .warning 0 15) (exCheck .critical (some 1)) 0 = true ∧
    shouldShowAlert (exGuardAck .critical 0 1) (exCheck .critical (some 1)) 500000 = false ∧
    shouldShowAlert (exGuardAck .warning 0 15) (exCheck .warning (some 15)) 600001 = true ∧
    shouldShowAlert (exGuardAck .warning 0 15) (exCheck .warning (some 9)) 0 = true := by
  refine ⟨?_, ?_, ?_, ?_, ?_⟩
  · exact (claim4_shouldShowAlert exGuard0 (exCheck .warning (some 15)) 0).1 rfl
  · exact ((claim4_shouldShowAlert (exGuardAck .warning 0 15)
      (exCheck .critical (some 1)) 0).2 ⟨.warning, 0, 15⟩ rfl).1 (by decide)
  · exact (((claim4_shouldShowAlert (exGuardAck .critical 0 1)
      (exCheck .critical (some 1)) 500000).2 ⟨.critical, 0, 1⟩ rfl).2.1
      (by decide) (Or.inl rfl))
  · exact ((((claim4_shouldShowAlert (exGuardAck .warning 0 15)
      (exCheck .warning (some 15)) 600001).2 ⟨.warning, 0, 15⟩ rfl).2.2
      rfl (by decide) 15 rfl).mpr (Or.inl (by decide)))
  · exact ((((claim4_shouldShowAlert (exGuardAck .warning 0 15)
      (exCheck .warning (some 9)) 0).2 ⟨.warning, 0, 15⟩ rfl).2.2
      rfl (by decide) 9 rfl).mpr (Or.inr (by norm_num)))

/-! ## Claim C6: sequential port validation -/

theorem findWorkingPort_find (works : Nat → Bool) (ports : List Nat) :
    (findWorkingPort works ports).1 = ports.find? works := by
  induction ports with
  | nil => rfl
  | cons p rest ih =>
      cases h : works p
      · simp [findWorkingPort, h, List.find?_cons_of_neg, ih]
      · simp [findWorkingPort, h, List.find?_cons_of_pos]

theorem findWorkingPort_trace (works : Nat → Bool) (ports : List Nat) :
    (findWorkingPort works ports).2
      = ports.takeWhile (fun p => !works p) ++ (ports.find? works).toList := by
  induction ports with
  | nil => rfl
  | cons p rest ih =>
      cases h : works p
      · simp [findWorkingPort, h, List.find?_cons_of_neg, List.takeWhile_cons, ih]
      · simp [findWorkingPort, h, List.find?_cons_of_pos, List.takeWhile_cons]

/-- C6: port validation probes the candidate ports in order and stops at
the first one whose probe answers HTTP 200 with a parseable JSON body:
the returned port is the first working one, the probed ports are exactly
the failing prefix followed by that first working port, and when no
candidate works the result is none. -/
theorem claim6_port_validation (resp : Nat → PortOutcome) (ports : List Nat) :
    (findWorkingPort (fun p => testPort (resp p)) ports).1
        = ports.find? (fun p => testPort (resp p))
    ∧ (findWorkingPort (fun p => testPort (resp p)) ports).2
        = ports.takeWhile (fun p => !testPort (resp p))
          ++ (ports.find? (fun p => testPort (resp p))).toList
    ∧ (ports.find? (fun p => testPort (resp p)) = none →
        (findWorkingPort (fun p => testPort (resp p)) ports).1 = none) := by
  refine ⟨findWorkingPort_find _ _, findWorkingPort_trace _ _, ?_⟩
  intro h
  rw [findWorkingPort_find _ _, h]

/-- Witness for C6: with ports 1, 2, 3 where only port 2 answers 200
with JSON, validation returns 2 after probing only 1 and 2; with a port
that never answers, it returns none. -/
theorem claim6_port_validation_witness :
    (findWorkingPort (fun p => testPort (exResp p)) [1, 2, 3]).1 = some 2 ∧
    (findWorkingPort (fun p => testPort (exResp p)) [1, 2, 3]).2 = [1, 2] ∧
    (findWorkingPort (fun p => testPort (exResp p)) [5]).1 = none := by
  refine ⟨?_, ?_, ?_⟩
  · rw [(claim6_port_validation exResp [1, 2, 3]).1]; rfl
  · rw [(claim6_port_validation exResp [1, 2, 3]).2.1]; rfl
  · exact (claim6_port_validation exResp [5]).2.2 rfl

/-! ## Claim C7: token extraction across platform variants -/

/-- C7 counterexample: the token-extraction contract is not identical
across the variants: on the same command line, reached through a ps aux
line on Unix, the Windows variant extracts the token from the
api_server_url path segment while the Unix variant, which lacks that
step, finds no token and rejects the line. -/
theorem claim7_counterexample :
    unixCommandLine exPsLine7 = exCmd7 ∧
    windowsExtractFromCommandLine exCmd7 7
      = some { pid := 7, extensionPort := 42, csrfToken := "abc" } ∧
    unixParseProcessLine exPsLine7 = none :=
  ⟨by decide, by decide, by decide⟩

/-- C7 (amended): each variant returns none whenever the port or the
token cannot be found, and tries its token sources in priority order
with the first match winning — but the contracts differ: Windows tries
the csrf_token flag, then a segment after an api_server_url flag, then
the first UUID-shaped substring, while Unix tries only the csrf_token
flag and then the first UUID-shaped substring, with no api_server_url
step. -/
theorem claim7_token_priority (cmd : String) (pid : Nat) (line : String) :
    ((extractPort cmd.toList = none → windowsExtractFromCommandLine cmd pid = none)
     ∧ ∀ port, extractPort cmd.toList = some port →
        ((∀ t, scanFirst matchCsrfFlag cmd.toList = some t →
            windowsExtractFromCommandLine cmd pid
              = some { pid := pid, extensionPort := port, csrfToken := t })
         ∧ (scanFirst matchCsrfFlag cmd.toList = none →
            ∀ t, scanFirst matchApiUrlTok cmd.toList = some t →
              windowsExtractFromCommandLine cmd pid
                = some { pid := pid, extensionPort := port, csrfToken := t })
         ∧ (scanFirst matchCsrfFlag cmd.toList = none →
            scanFirst matchApiUrlTok cmd.toList = none →
            ∀ t, scanFirst matchUuid cmd.toList = some t →
              windowsExtractFromCommandLine cmd pid
                = some { pid := pid, extensionPort := port, csrfToken := t })
         ∧ (scanFirst matchCsrfFlag cmd.toList = none →
            scanFirst matchApiUrlTok cmd.toList = none →
            scanFirst matchUuid cmd.toList = none →
            windowsExtractFromCommandLine cmd pid = none)))
    ∧ (((splitWs line).length < 11 → unixParseProcessLine line = none)
     ∧ (¬ (splitWs line).length < 11 →
        ((extractPort (unixCommandLine line).toList = none →
            unixParseProcessLine line = none)
         ∧ ∀ port, extractPort (unixCommandLine line).toList = some port →
            ((∀ t, scanFirst matchCsrfFlag (unixCommandLine line).toList = some t →
                unixParseProcessLine line
                  = some { pid := unixPid line, extensionPort := port, csrfToken := t })
             ∧ (scanFirst matchCsrfFlag (unixCommandLine line).toList = none →
                ∀ t, scanFirst matchUuid (unixCommandLine line).toList = some t →
                  unixParseProcessLine line
                    = some { pid := unixPid line, extensionPort := port, csrfToken := t })
             ∧ (scanFirst matchCsrfFlag (unixCommandLine line).toList = none →
                scanFirst matchUuid (unixCommandLine line).toList = none →
                unixParseProcessLine line = none))))) := by
  refine ⟨⟨?_, ?_⟩, ⟨?_, ?_⟩⟩
  · intro h
    simp only [windowsExtractFromCommandLine, h]
  · intro port hport
    refine ⟨?_, ?_, ?_, ?_⟩
    · intro t ht
      simp only [windowsExtractFromCommandLine, windowsToken, hport, ht]
    · intro h1 t ht
      simp only [windowsExtractFromCommandLine, windowsToken, hport, h1, ht]
    · intro h1 h2 t ht
      simp only [windowsExtractFromCommandLine, windowsToken, hport, h1, h2, ht]
    · intro h1 h2 h3
      simp only [windowsExtractFromCommandLine, windowsToken, hport, h1, h2, h3]
  · intro h
    simp only [unixParseProcessLine, if_pos h]
  · intro hlen
    refine ⟨?_, ?_⟩
    · intro h
      simp only [unixParseProcessLine, if_neg hlen, h]
    · intro port hport
      refine ⟨?_, ?_, ?_⟩
      · intro t ht
        simp only [unixParseProcessLine, if_neg hlen, unixToken, hport, ht]
      · intro h1 t ht
        simp only [unixParseProcessLine, if_neg hlen, unixToken, hport, h1, ht]
      · intro h1 h2
        simp only [unixParseProcessLine, if_neg hlen, unixToken, hport, h1, h2]

/-- Witness for C7 (amended): the csrf_token flag wins on Windows, and
the Unix variant extracts a bare UUID from a full ps line. -/
theorem claim7_token_priority_witness :
    windowsExtractFromCommandLine "--extension_server_port=7 --csrf_token=ab" 0
      = some { pid := 0, extensionPort := 7, csrfToken := "ab" } ∧
    unixParseProcessLine
      "u 7 0 0 0 0 ? S 0 0:00 s --extension_server_port=7 12345678-abcd-ef01-2345-6789abcdef01"
      = some { pid := 7, extensionPort := 7
             , csrfToken := "12345678-abcd-ef01-2345-6789abcdef01" } := by
  refine ⟨?_, ?_⟩
  · exact ((claim7_token_priority "--extension_server_port=7 --csrf_token=ab" 0 "").1.2
      7 (by decide)).1 "ab" (by decide)
  · exact (((claim7_token_priority "" 0
      "u 7 0 0 0 0 ? S 0 0:00 s --extension_server_port=7 12345678-abcd-ef01-2345-6789abcdef01").2.2
      (by decide)).2 7 (by decide)).2.1 (by decide)
      "12345678-abcd-ef01-2345-6789abcdef01" (by decide)

/-! ## Claim C5: bounded retry in detectProcessInfo -/

theorem countP_probes_proc (l : List Nat) :
    List.countP evIsProc (l.map DiscoveryEvent.probe) = 0 := by
  induction l with
  | nil => rfl
  | cons p rest ih => simp [List.countP_cons, evIsProc, ih]

theorem runAttempt_no_wait (e : AttemptEnv) (ms : Nat) :
    DiscoveryEvent.wait ms ∉ (runAttempt e).2 := by
  unfold runAttempt
  cases h1 : e.execThrows
  · cases hp : e.parseResult with
    | none => simp
    | some info =>
        by_cases hne : (attemptPorts e).isEmpty
        · simp [hne]
        · simp only [hne, if_false, Bool.false_eq_true]
          cases hfw : (findWorkingPort (attemptWorks e) (attemptPorts e)).1 <;>
            simp [hfw, List.mem_map]
  · simp

theorem runAttempt_countProc (e : AttemptEnv) : countProc (runAttempt e).2 = 1 := by
  unfold runAttempt countProc
  cases h1 : e.execThrows
  · cases hp : e.parseResult with
    | none => simp [List.countP_cons, evIsProc]
    | some info =>
        by_cases hne : (attemptPorts e).isEmpty
        · simp [hne, List.countP_cons, evIsProc]
        · simp only [hne, if_false, Bool.false_eq_true]
          cases hfw : (findWorkingPort (attemptWorks e) (attemptPorts e)).1 <;>
            simp [hfw, List.countP_append, List.countP_cons, evIsProc, countP_probes_proc]
  · simp [List.countP_cons, evIsProc]

theorem runAttempt_countWait (e : AttemptEnv) : countWait (runAttempt e).2 = 0 := by
  unfold countWait
  rw [List.countP_eq_zero]
  intro ev hev
  cases ev with
  | wait ms => exact absurd hev (runAttempt_no_wait e ms)
  | procListCmd => simp [evIsWait]
  | portListCmd => simp [evIsWait]
  | probe p => simp [evIsWait]

theorem detectFrom_countProc_le (env : Nat → AttemptEnv) :
    ∀ r a, countProc (detectFrom env a r).2 ≤ r := by
  intro r
  induction r with
  | zero => intro a; simp [detectFrom, countProc]
  | succ r ih =>
      intro a
      simp only [detectFrom]
      cases hres : (runAttempt (env a)).1 with
      | some info =>
          simp only [hres]
          rw [runAttempt_countProc]
          omega
      | none =>
          simp only [hres, countProc, List.countP_append]
          have h1 : List.countP evIsProc (runAttempt (env a)).2 = 1 :=
            runAttempt_countProc (env a)
          have h2 : List.countP evIsProc
              (if r = 0 then ([] : List DiscoveryEvent) else [.wait 500]) = 0 := by
            by_cases hr : r = 0 <;> simp [hr, List.countP_cons, evIsProc]
          have h3 := ih (a + 1)
          simp only [countProc] at h3
          omega

theorem detectFrom_pos (env : Nat → AttemptEnv) :
    ∀ r a, r ≠ 0 → 1 ≤ countProc (detectFrom env a r).2 := by
  intro r
  cases r with
  | zero => intro a h; exact absurd rfl h
  | succ r =>
      intro a _
      simp only [detectFrom]
      cases hres : (runAttempt (env a)).1 with
      | some info =>
          simp only [hres]
          rw [runAttempt_countProc]
      | none =>
          simp only [hres, countProc, List.countP_append]
          have h1 : List.countP evIsProc (runAttempt (env a)).2 = 1 :=
            runAttempt_countProc (env a)
          omega

theorem detectFrom_none_count (env : Nat → AttemptEnv) :
    ∀ r a, (detectFrom env a r).1 = none →
      countProc (detectFrom env a r).2 = r := by
  intro r
  induction r with
  | zero => intro a _; simp [detectFrom, countProc]
  | succ r ih =>
      intro a hnone
      simp only [detectFrom] at hnone ⊢
      cases hres : (runAttempt (env a)).1 with
      | some info => rw [hres] at hnone; cases hnone
      | none =>
          rw [hres] at hnone
          simp only [countProc, List.countP_append]
          have h1 : List.countP evIsProc (runAttempt (env a)).2 = 1 :=
            runAttempt_countProc (env a)
          have h2 : List.countP evIsProc
              (if r = 0 then ([] : List DiscoveryEvent) else [.wait 500]) = 0 := by
            by_cases hr : r = 0 <;> simp [hr, List.countP_cons, evIsProc]
          have h3 := ih (a + 1) hnone
          simp only [countProc] at h3
          omega

theorem detectFrom_all_fail (env : Nat → AttemptEnv) :
    ∀ r a, (∀ i, i < r → (runAttempt (env (a + i))).1 = none) →
      (detectFrom env a r).1 = none := by
  intro r
  induction r with
  | zero => intro a _; rfl
  | succ r ih =>
      intro a hall
      simp only [detectFrom]
      have h0 : (runAttempt (env a)).1 = none := by
        have := hall 0 (Nat.succ_pos r)
        rwa [Nat.add_zero] at this
      rw [h0]
      refine ih (a + 1) ?_
      intro i hi
      have heq : a + 1 + i = a + (i + 1) := by omega
      rw [heq]
      exact hall (i + 1) (by omega)

theorem detectFrom_none_all (env : Nat → AttemptEnv) :
    ∀ r a, (detectFrom env a r).1 = none →
      ∀ i, i < r → (runAttempt (env (a + i))).1 = none := by
  intro r
  induction r with
  | zero => intro a _ i hi; omega
  | succ r ih =>
      intro a hnone i hi
      simp only [detectFrom] at hnone
      cases hres : (runAttempt (env a)).1 with
      | some info => rw [hres] at hnone; cases hnone
      | none =>
          rw [hres] at hnone
          cases i with
          | zero => rwa [Nat.add_zero]
          | succ i =>
              have heq : a + (i + 1) = a + 1 + i := by omega
              rw [heq]
              exact ih (a + 1) hnone i (by omega)

theorem detectFrom_success (env : Nat → AttemptEnv) :
    ∀ r a i, i < r → (∀ j, j < i → (runAttempt (env (a + j))).1 = none) →
      ∀ info, (runAttempt (env (a + i))).1 = some info →
        (detectFrom env a r).1 = some info ∧
          countProc (detectFrom env a r).2 = i + 1 := by
  intro r
  induction r with
  | zero => intro a i hi; omega
  | succ r ih =>
      intro a i hi hprev info hsucc
      simp only [detectFrom]
      cases i with
      | zero =>
          rw [Nat.add_zero] at hsucc
          rw [hsucc]
          exact ⟨rfl, runAttempt_countProc (env a)⟩
      | succ i =>
          have h0 : (runAttempt (env a)).1 = none := by
            have := hprev 0 (Nat.succ_pos i)
            rwa [Nat.add_zero] at this
          rw [h0]
          have hprev2 : ∀ j, j < i → (runAttempt (env (a + 1 + j))).1 = none := by
            intro j hj
            have heq : a + 1 + j = a + (j + 1) := by omega
            rw [heq]
            exact hprev (j + 1) (by omega)
          have hsucc2 : (runAttempt (env (a + 1 + i))).1 = some info := by
            have heq : a + 1 + i = a + (i + 1) := by omega
            rw [heq]
            exact hsucc
          obtain ⟨hr1, hr2⟩ := ih (a + 1) i (by omega) hprev2 info hsucc2
          refine ⟨hr1, ?_⟩
          simp only [countProc, List.countP_append]
          have h1 : List.countP evIsProc (runAttempt (env a)).2 = 1 :=
            runAttempt_countProc (env a)
          have h2 : List.countP evIsProc
              (if r = 0 then ([] : List DiscoveryEvent) else [.wait 500]) = 0 := by
            by_cases hr : r = 0 <;> simp [hr, List.countP_cons, evIsProc]
          simp only [countProc] at hr2
          omega

theorem detectFrom_countWait (env : Nat → AttemptEnv) :
    ∀ r a, countWait (detectFrom env a r).2 = countProc (detectFrom env a r).2 - 1 := by
  intro r
  induction r with
  | zero => intro a; simp [detectFrom, countProc, countWait]
  | succ r ih =>
      intro a
      simp only [detectFrom]
      cases hres : (runAttempt (env a)).1 with
      | some info =>
          simp only [hres]
          rw [runAttempt_countWait, runAttempt_countProc]
      | none =>
          simp only [hres, countProc, countWait, List.countP_append]
          have hp1 : List.countP evIsProc (runAttempt (env a)).2 = 1 :=
            runAttempt_countProc (env a)
          have hw1 : List.countP evIsWait (runAttempt (env a)).2 = 0 :=
            runAttempt_countWait (env a)
          have hih := ih (a + 1)
          simp only [countProc, countWait] at hih
          by_cases hr : r = 0
          · subst hr
            simp [detectFrom, List.countP_nil] at hih ⊢
            omega
          · have hpos := detectFrom_pos env r (a + 1) hr
            simp only [countProc] at hpos
            have h2p : List.countP evIsProc
                (if r = 0 then ([] : List DiscoveryEvent) else [.wait 500]) = 0 := by
              simp [hr, List.countP_cons, evIsProc]
            have h2w : List.countP evIsWait
                (if r = 0 then ([] : List DiscoveryEvent) else [.wait 500]) = 1 := by
              simp [hr, List.countP_cons, evIsWait]
            omega

theorem detectFrom_wait500 (env : Nat → AttemptEnv) :
    ∀ r a ms, DiscoveryEvent.wait ms ∈ (detectFrom env a r).2 → ms = 500 := by
  intro r
  induction r with
  | zero => intro a ms h; simp [detectFrom] at h
  | succ r ih =>
      intro a ms h
      simp only [detectFrom] at h
      cases hres : (runAttempt (env a)).1 with
      | some info =>
          rw [hres] at h
          exact absurd h (runAttempt_no_wait (env a) ms)
      | none =>
          rw [hres] at h
          rcases List.mem_append.mp h with h1 | h2
          · rcases List.mem_append.mp h1 with h11 | h12
            · exact absurd h11 (runAttempt_no_wait (env a) ms)
            · by_cases hr : r = 0
              · simp [hr] at h12
              · simp [hr] at h12
                exact h12
          · exact ih (a + 1) ms h2

/-- The reasons a single attempt fails, as a characterization of
runAttempt: a thrown process-list command, a parse failure, an empty
port list, or no validating port; an attempt never propagates an
exception. -/
theorem runAttempt_none_iff (e : AttemptEnv) :
    (runAttempt e).1 = none ↔
      (e.execThrows = true ∨ e.parseResult = none ∨ attemptPorts e = [] ∨
        (attemptPorts e).find? (attemptWorks e) = none) := by
  unfold runAttempt
  cases h1 : e.execThrows
  · cases hp : e.parseResult with
    | none => simp
    | some info =>
        by_cases hne : (attemptPorts e).isEmpty
        · simp [hne, List.isEmpty_iff.mp hne]
        · simp only [hne, if_false, Bool.false_eq_true]
          cases hfw : (findWorkingPort (attemptWorks e) (attemptPorts e)).1 with
          | some p =>
              rw [findWorkingPort_find] at hfw
              simp [hfw, List.isEmpty_iff, hne]
              intro hcon
              rw [hcon] at hne
              exact hne rfl
          | none =>
              rw [findWorkingPort_find] at hfw
              simp [hfw]
  · simp

/-- The shape of a successful attempt: the result carries the extension
port and token from the parse and the first validated port. -/
theorem runAttempt_success_shape (e : AttemptEnv) (info : ParsedProcessInfo) (p : Nat)
    (h1 : e.execThrows = false) (h2 : e.parseResult = some info)
    (h3 : (attemptPorts e).find? (attemptWorks e) = some p) :
    (runAttempt e).1 = some { extensionPort := info.extensionPort
                            , connectPort := p, csrfToken := info.csrfToken } := by
  unfold runAttempt
  have hne : (attemptPorts e).isEmpty = false := by
    cases hpp : attemptPorts e with
    | nil => rw [hpp] at h3; cases h3
    | cons q rest => simp
  have hfw : (findWorkingPort (attemptWorks e) (attemptPorts e)).1 = some p := by
    rw [findWorkingPort_find]; exact h3
  simp [h1, h2, hne, hfw]

/-- C5: detectProcessInfo performs at most maxRetries attempts, each
issuing exactly one process-list command; it returns none exactly when
all maxRetries attempts fail, in which case exactly maxRetries
process-list commands were issued; every failure is one of parse
failure, no listening ports or no validating port (a thrown command is
caught, never propagated); on the first successful attempt it
immediately returns the info assembled from the parse and the validated
port, having issued that attempt's command and no more; and the trace
holds exactly one 500 ms wait between consecutive attempts. -/
theorem claim5_detect_retries (env : Nat → AttemptEnv) (maxRetries : Nat) :
    (countProc (detectProcessInfo env maxRetries).2 ≤ maxRetries)
    ∧ (∀ e : AttemptEnv, countProc (runAttempt e).2 = 1)
    ∧ ((detectProcessInfo env maxRetries).1 = none ↔
        ∀ i, i < maxRetries → (runAttempt (env i)).1 = none)
    ∧ ((detectProcessInfo env maxRetries).1 = none →
        countProc (detectProcessInfo env maxRetries).2 = maxRetries)
    ∧ (∀ e : AttemptEnv, (runAttempt e).1 = none ↔
        (e.execThrows = true ∨ e.parseResult = none ∨ attemptPorts e = [] ∨
          (attemptPorts e).find? (attemptWorks e) = none))
    ∧ (∀ i, i < maxRetries → (∀ j, j < i → (runAttempt (env j)).1 = none) →
        ∀ info, (runAttempt (env i)).1 = some info →
          (detectProcessInfo env maxRetries).1 = some info ∧
            countProc (detectProcessInfo env maxRetries).2 = i + 1)
    ∧ (∀ e info p, e.execThrows = false → e.parseResult = some info →
        (attemptPorts e).find? (attemptWorks e) = some p →
        (runAttempt e).1 = some { extensionPort := info.extensionPort
                                , connectPort := p, csrfToken := info.csrfToken })
    ∧ (countWait (detectProcessInfo env maxRetries).2
        = countProc (detectProcessInfo env maxRetries).2 - 1)
    ∧ (∀ ms, DiscoveryEvent.wait ms ∈ (detectProcessInfo env maxRetries).2 → ms = 500) := by
  refine ⟨detectFrom_countProc_le env maxRetries 0, runAttempt_countProc, ⟨?_, ?_⟩,
    detectFrom_none_count env maxRetries 0, runAttempt_none_iff, ?_,
    runAttempt_success_shape, detectFrom_countWait env maxRetries 0,
    detectFrom_wait500 env maxRetries 0⟩
  · intro hnone i hi
    have := detectFrom_none_all env maxRetries 0 hnone i hi
    rwa [Nat.zero_add] at this
  · intro hall
    refine detectFrom_all_fail env maxRetries 0 ?_
    intro i hi
    rw [Nat.zero_add]
    exact hall i hi
  · intro i hi hprev info hsucc
    refine detectFrom_success env maxRetries 0 i hi ?_ info ?_
    · intro j hj
      rw [Nat.zero_add]
      exact hprev j hj
    · rw [Nat.zero_add]
      exact hsucc

/-- Witness for C5: with a failed first attempt and a successful second,
discovery with maxRetries 3 returns the parsed port/token with the
validated port after exactly two process-list commands and one 500 ms
wait; with all attempts failing it returns none after exactly three. -/
theorem claim5_detect_retries_witness :
    (detectProcessInfo exEnvSeq 3).1
        = some { extensionPort := 42, connectPort := 2, csrfToken := "t" } ∧
    countProc (detectProcessInfo exEnvSeq 3).2 = 2 ∧
    countWait (detectProcessInfo exEnvSeq 3).2 = 1 ∧
    (detectProcessInfo (fun _ => exEnvFail) 3).1 = none ∧
    countProc (detectProcessInfo (fun _ => exEnvFail) 3).2 = 3 := by
  have h := claim5_detect_retries exEnvSeq 3
  have hfail : (runAttempt exEnvFail).1 = none := by
    rw [(claim5_detect_retries (fun _ => exEnvFail) 3).2.2.2.2.1 exEnvFail]
    exact Or.inr (Or.inl rfl)
  have hsucc := (claim5_detect_retries exEnvSeq 3).2.2.2.2.2.2.1 exEnvOk
    { pid := 7, extensionPort := 42, csrfToken := "t" } 2 rfl rfl (by rfl)
  have hmain := h.2.2.2.2.2.1 1 (by omega)
    (fun j hj => by
      have hj0 : j = 0 := by omega
      rw [hj0]
      exact hfail)
    { extensionPort := 42, connectPort := 2, csrfToken := "t" }
    (by
      show (runAttempt (exEnvSeq 1)).1 = _
      have : exEnvSeq 1 = exEnvOk := rfl
      rw [this]
      exact hsucc)
  have hallfail : (detectProcessInfo (fun _ => exEnvFail) 3).1 = none :=
    (claim5_detect_retries (fun _ => exEnvFail) 3).2.2.1.mpr (fun i _ => hfail)
  refine ⟨hmain.1, hmain.2, ?_, hallfail, ?_⟩
  · rw [(claim5_detect_retries exEnvSeq 3).2.2.2.2.2.2.2.1, hmain.2]
  · exact (claim5_detect_retries (fun _ => exEnvFail) 3).2.2.2.1 hallfail

/-! ## Claim C8: quota source normalization -/

theorem parseModels_eq (now : Int) (renderDate renderTime : Int → String)
    (rs : List ServerModelConfig) :
    parseModels now renderDate renderTime rs
      = rs.filterMap (fun m => m.quotaInfo.map (mkModelEntry now renderDate renderTime m)) := by
  induction rs with
  | nil => rfl
  | cons m rest ih =>
      cases hq : m.quotaInfo with
      | none => simp [parseModels, hq, List.filterMap_cons, ih]
      | some qi => simp [parseModels, hq, List.filterMap_cons, ih]

/-- C8: normalization derives remainingPercentage as the fraction times
100 when the fraction is present and leaves it undefined otherwise;
isExhausted holds exactly when the fraction equals 0; timeUntilReset is
resetTime minus now; a non-positive time-until-reset is formatted as
"Ready"; and a PromptCreditsInfo, with remainingPercentage equal to
available over monthly times 100, is produced only when the monthly
allotment is positive. -/
theorem claim8_normalization (data : ServerUserStatusResponse) (now : Int)
    (renderDate renderTime : Int → String) :
    ((parseResponse data now renderDate renderTime).models
        = (data.userStatus.cascadeModelConfigData.getD []).filterMap
            (fun m => m.quotaInfo.map (mkModelEntry now renderDate renderTime m)))
    ∧ (∀ (m : ServerModelConfig) (qi : QuotaInfoRaw),
        (∀ f, qi.remainingFraction = some f →
          (mkModelEntry now renderDate renderTime m qi).remainingPercentage
            = some (f * 100))
        ∧ (qi.remainingFraction = none →
          (mkModelEntry now renderDate renderTime m qi).remainingPercentage = none)
        ∧ ((mkModelEntry now renderDate renderTime m qi).isExhausted = true ↔
            qi.remainingFraction = some 0)
        ∧ (mkModelEntry now renderDate renderTime m qi).timeUntilReset
            = qi.resetTime - now)
    ∧ (∀ (ms : Int) (d t : String), ms ≤ 0 → formatTime ms d t = "Ready")
    ∧ (∀ pc, (parseResponse data now renderDate renderTime).promptCredits = some pc →
        0 < pc.monthly ∧ pc.remainingPercentage = pc.available / pc.monthly * 100) := by
  refine ⟨parseModels_eq now renderDate renderTime _, ?_, ?_, ?_⟩
  · intro m qi
    refine ⟨?_, ?_, ?_, rfl⟩
    · intro f hf
      simp [mkModelEntry, hf]
    · intro hf
      simp [mkModelEntry, hf]
    · simp [mkModelEntry]
  · intro ms d t h
    simp [formatTime, h]
  · intro pc hpc
    simp only [parseResponse] at hpc
    cases hps : data.userStatus.planStatus with
    | none => simp only [hps] at hpc; cases hpc
    | some ps =>
        simp only [hps] at hpc
        cases hav : ps.availablePromptCredits with
        | none => simp only [hav] at hpc; cases hpc
        | some available =>
            simp only [hav] at hpc
            by_cases hm : 0 < ps.planInfo.monthlyPromptCredits
            · rw [if_pos hm] at hpc
              obtain rfl := (Option.some_inj.mp hpc).symm
              exact ⟨hm, rfl⟩
            · rw [if_neg hm] at hpc
              cases hpc

/-- Witness for C8 at a concrete response: a model with fraction one
half at reset time 1000 seen at time 400 yields percentage 50 and
time-until-reset 600 and is not exhausted; a negative time-until-reset
formats as "Ready"; the prompt-credits pool 50 of 200 yields
remainingPercentage 25. -/
theorem claim8_normalization_witness :
    (mkModelEntry 400 (fun _ => "D") (fun _ => "T") exRawModel exRawQi).remainingPercentage
        = some 50
    ∧ (mkModelEntry 400 (fun _ => "D") (fun _ => "T") exRawModel exRawQi).timeUntilReset
        = 600
    ∧ (mkModelEntry 400 (fun _ => "D") (fun _ => "T") exRawModel exRawQi).isExhausted
        = false
    ∧ formatTime (-5) "D" "T" = "Ready"
    ∧ (parseResponse exResponse 400 (fun _ => "D") (fun _ => "T")).promptCredits
        = some exPc
    ∧ 0 < exPc.monthly
    ∧ exPc.remainingPercentage = exPc.available / exPc.monthly * 100
    ∧ exPc.remainingPercentage = 25 := by
  have h := claim8_normalization exResponse 400 (fun _ => "D") (fun _ => "T")
  have h1 := (h.2.1 exRawModel exRawQi).1 (1 / 2) rfl
  have h4 := (h.2.1 exRawModel exRawQi).2.2.2
  have hex := (h.2.1 exRawModel exRawQi).2.2.1
  have hpc := h.2.2.2 exPc rfl
  refine ⟨?_, ?_, ?_, h.2.2.1 (-5) "D" "T" (by norm_num), rfl, hpc.1, hpc.2, ?_⟩
  · rw [h1]; norm_num
  · rw [h4]; rfl
  · have hne : ¬ (mkModelEntry 400 (fun _ => "D") (fun _ => "T") exRawModel exRawQi).isExhausted
        = true := by
      intro hcon
      have := hex.mp hcon
      rw [show exRawQi.remainingFraction = some (1 / 2) from rfl] at this
      have : (1 / 2 : Rat) = 0 := Option.some_inj.mp this
      norm_num at this
    simpa using hne
  · show (50 : Rat) / 200 * 100 = 25
    norm_num

/-! ## Claim C9: transport failures leave the snapshot untouched -/

/-- C9: on a network error, a timeout, or a non-JSON body, fetchQuota
reports the error through the error callback, returns null, and leaves
the stored last snapshot exactly as it was. -/
theorem claim9_fetch_failure (st : QuotaManagerState) (now : Int)
    (renderDate renderTime : Int → String) :
    (∀ msg, fetchQuota st (.netError msg) now renderDate renderTime
        = (st, none, [.error msg]))
    ∧ (fetchQuota st .timeout now renderDate renderTime
        = (st, none, [.error "Request timeout"]))
    ∧ (fetchQuota st .badJson now renderDate renderTime
        = (st, none, [.error "Invalid JSON response"]))
    ∧ (∀ msg, (fetchQuota st (.netError msg) now renderDate renderTime).1.lastSnapshot
        = st.lastSnapshot)
    ∧ ((fetchQuota st .timeout now renderDate renderTime).1.lastSnapshot
        = st.lastSnapshot)
    ∧ ((fetchQuota st .badJson now renderDate renderTime).1.lastSnapshot
        = st.lastSnapshot) :=
  ⟨fun _ => rfl, rfl, rfl, fun _ => rfl, rfl, rfl⟩

/-- C10: after every updateSnapshot the guard-active flag equals the
config's guardEnabled (the state is recomputed from config.guardEnabled),
so a preceding toggleGuard, which merely flips guardState.guardActive and
leaves the config untouched, is silently reverted by the next snapshot
update. -/
theorem claim10_guardActive_recomputed (g : QuotaGuard) (snap : QuotaSnapshot)
    (now : Int) :
    ((updateSnapshot g snap now).1.guardState.guardActive = g.config.guardEnabled)
      ∧ ((updateSnapshot g snap now).2.guardActive = g.config.guardEnabled)
      ∧ ((toggleGuard g).1.guardState.guardActive = !g.guardState.guardActive)
      ∧ ((toggleGuard g).1.config = g.config) :=
  ⟨rfl, rfl, rfl, rfl⟩

end Gravity
